import Mathlib

/-!
# Verification of the period-resolution and reminder-reconciliation core

This development embeds, in Lean, the temporal core of a WhatsApp
personal-finance backend (files `main.py` and `send_reminders.py`):

* the natural-language period resolver used by `get_expenses_summary`,
  `get_incomes_summary` and `get_reminders_for_period`;
* the recurring-reminder engine `generate_monthly_reminders`;
* the notification scan `check_and_send_reminders`;
* the single-use token check `verify_token`.

Modelling conventions, fixed throughout:

* Python `datetime` values are embedded as civil records `DT` (a `Date`
  plus hour/minute/second).  Comparison of two aware datetimes in the same
  timezone is field-lexicographic, as in Python.  The `microsecond` field
  is 0 on every value the claims touch and is omitted.
* Python datetimes are bounded (`0001-01-01 .. 9999-12-31`); day/month
  arithmetic that would leave that range raises `OverflowError`.  The
  day-stepping and month-stepping functions therefore return `Option`,
  with `none` for the raising executions.
* The storage timezone is UTC; the civil timezone `America/Sao_Paulo` has
  been a fixed UTC-3 offset since 2019, and is embedded as exactly that
  constant offset (`DT.toBRTO`).
* The SQLAlchemy session of the source is created with `autoflush=False`,
  so queries see only committed rows; `db.add`/attribute writes are pending
  until `db.commit()`, and `db.rollback()` discards all pending changes.
  The embedding of `generate_monthly_reminders` models this explicitly.
* The `is_sent` / `pre_reminder_sent` columns hold the strings
  `'false'`/`'true'`; they are embedded as `Bool`.
* Python's `str.lower` is embedded as a character-wise ASCII lowering;
  the two agree on every token the resolver searches for, and all claims
  are conditioned on the (lowered) token tests, not on the lowering of
  exotic characters.
-/

/-! ## Calendar and datetime model -/

/-- A civil date, mirroring the (year, month, day) fields of a Python
`datetime`. -/
structure Date where
  y : Nat
  m : Nat
  d : Nat
deriving DecidableEq

/-- A civil datetime at second granularity, mirroring a Python `datetime`
whose `microsecond` is zero. -/
structure DT where
  date : Date
  h : Nat
  mi : Nat
  s : Nat
deriving DecidableEq

/-- Gregorian leap-year rule, as used by Python's `calendar`/`datetime`. -/
def isLeapYear (y : Nat) : Bool :=
  (y % 4 == 0 && y % 100 != 0) || y % 400 == 0

/-- Number of days of month `m` of year `y` (months out of 1..12 are never
produced by the embedded operations on valid dates). -/
def daysInMonth (y m : Nat) : Nat :=
  if m = 2 then (if isLeapYear y then 29 else 28)
  else if m = 4 ∨ m = 6 ∨ m = 9 ∨ m = 11 then 30
  else 31

/-- A date Python's `datetime` accepts: bounded year, real month, real day. -/
def Date.ValidD (a : Date) : Prop :=
  1 ≤ a.y ∧ a.y ≤ 9999 ∧ 1 ≤ a.m ∧ a.m ≤ 12 ∧ 1 ≤ a.d ∧ a.d ≤ daysInMonth a.y a.m

instance (a : Date) : Decidable a.ValidD := by
  unfold Date.ValidD; infer_instance

/-- A datetime Python's `datetime` accepts. -/
def DT.ValidT (t : DT) : Prop :=
  t.date.ValidD ∧ t.h ≤ 23 ∧ t.mi ≤ 59 ∧ t.s ≤ 59

instance (t : DT) : Decidable t.ValidT := by
  unfold DT.ValidT; infer_instance

/-- Strict field-lexicographic order on dates; this is how Python compares
the date parts of two datetimes carrying the same timezone. -/
def Date.lt (a b : Date) : Prop :=
  a.y < b.y ∨ (a.y = b.y ∧ (a.m < b.m ∨ (a.m = b.m ∧ a.d < b.d)))

instance (a b : Date) : Decidable (Date.lt a b) := by
  unfold Date.lt; infer_instance

def Date.le (a b : Date) : Prop := Date.lt a b ∨ a = b

instance (a b : Date) : Decidable (Date.le a b) := by
  unfold Date.le; infer_instance

/-- Strict comparison of two same-timezone Python datetimes: Python
compares the field tuples lexicographically. -/
def DT.lt (a b : DT) : Prop :=
  Date.lt a.date b.date ∨
    (a.date = b.date ∧
      (a.h < b.h ∨ (a.h = b.h ∧ (a.mi < b.mi ∨ (a.mi = b.mi ∧ a.s < b.s)))))

instance (a b : DT) : Decidable (DT.lt a b) := by
  unfold DT.lt; infer_instance

def DT.le (a b : DT) : Prop := DT.lt a b ∨ a = b

instance (a b : DT) : Decidable (DT.le a b) := by
  unfold DT.le; infer_instance

/-- Next civil day (total form; callers guard the year-9999 bound). -/
def Date.succD (a : Date) : Date :=
  if a.d < daysInMonth a.y a.m then ⟨a.y, a.m, a.d + 1⟩
  else if a.m < 12 then ⟨a.y, a.m + 1, 1⟩
  else ⟨a.y + 1, 1, 1⟩

/-- Previous civil day (total form; callers guard the year-1 bound). -/
def Date.predD (a : Date) : Date :=
  if 1 < a.d then ⟨a.y, a.m, a.d - 1⟩
  else if 1 < a.m then ⟨a.y, a.m - 1, daysInMonth a.y (a.m - 1)⟩
  else ⟨a.y - 1, 12, 31⟩

/-- Next civil day; `none` exactly where Python raises `OverflowError`
(stepping past `9999-12-31`). -/
def Date.succDO (a : Date) : Option Date :=
  if a.y = 9999 ∧ a.m = 12 ∧ a.d = 31 then none else some a.succD

/-- Previous civil day; `none` exactly where Python raises `OverflowError`
(stepping before `0001-01-01`). -/
def Date.predDO (a : Date) : Option Date :=
  if a.y = 1 ∧ a.m = 1 ∧ a.d = 1 then none else some a.predD

def Date.addDaysO : Date → Nat → Option Date
  | a, 0 => some a
  | a, n + 1 =>
    match a.succDO with
    | none => none
    | some b => Date.addDaysO b n

def Date.subDaysO : Date → Nat → Option Date
  | a, 0 => some a
  | a, n + 1 =>
    match a.predDO with
    | none => none
    | some b => Date.subDaysO b n

/-- `t + timedelta(days=n)` for `n ≥ 0`: the time of day is untouched. -/
def DT.addDaysO (t : DT) (n : Nat) : Option DT :=
  (Date.addDaysO t.date n).map fun d => { t with date := d }

/-- `t - timedelta(days=n)` for `n ≥ 0`. -/
def DT.subDaysO (t : DT) (n : Nat) : Option DT :=
  (Date.subDaysO t.date n).map fun d => { t with date := d }

/-- `t + timedelta(days=k)` for a signed `k`. -/
def DT.addDaysIntO (t : DT) (k : Int) : Option DT :=
  if 0 ≤ k then t.addDaysO k.toNat else t.subDaysO (-k).toNat

/-- `t + timedelta(days=1)`. -/
def DT.addDays1O (t : DT) : Option DT := t.addDaysO 1

/-- `t.replace(hour=0, minute=0, second=0, microsecond=0)`: local midnight
of the same civil day. -/
def DT.startOfDay (t : DT) : DT := { t with h := 0, mi := 0, s := 0 }

/-- `dateutil.relativedelta(months=1)` on the date part: advance one month,
clamping the day down to the target month's last valid day; `none` where
Python raises `OverflowError` (December of year 9999). -/
def Date.addMonthClampO (a : Date) : Option Date :=
  if a.m = 12 then
    if a.y = 9999 then none
    else some ⟨a.y + 1, 1, min a.d (daysInMonth (a.y + 1) 1)⟩
  else some ⟨a.y, a.m + 1, min a.d (daysInMonth a.y (a.m + 1))⟩

/-- `t + relativedelta(months=1)`: the time of day is untouched. -/
def DT.addMonthClampO (t : DT) : Option DT :=
  (Date.addMonthClampO t.date).map fun d => { t with date := d }

/-- `now.replace(day=d, hour=h, minute=mi)`: Python validates the new day
against `now`'s month and raises `ValueError` when it does not exist; the
second (and microsecond) of `now` are kept. -/
def DT.replaceDayHM (t : DT) (d h mi : Nat) : Option DT :=
  if 1 ≤ d ∧ d ≤ daysInMonth t.date.y t.date.m then
    some { date := ⟨t.date.y, t.date.m, d⟩, h := h, mi := mi, s := t.s }
  else none

/-- `utc_dt.astimezone(TZ_SAO_PAULO)` with the present-day fixed UTC-3
offset of America/Sao_Paulo: same instant, civil fields shifted back three
hours; `none` where Python raises `OverflowError` (below `datetime.min`). -/
def DT.toBRTO (t : DT) : Option DT :=
  if 3 ≤ t.h then some { t with h := t.h - 3 }
  else
    match t.date.predDO with
    | none => none
    | some d => some { date := d, h := t.h + 21, mi := t.mi, s := t.s }

/-! ## String matching: tokens, the dynamic-days regex, the literal date -/

/-- Character-wise ASCII lowering, embedding `period.lower()` for the
resolver's token tests (the searched tokens are unaffected by non-ASCII
lowering differences). -/
def lowerChars (l : List Char) : List Char := l.map Char.toLower

/-- Case of Python's `tok in s` substring test used by the resolvers. -/
def containsTok (hay tok : List Char) : Prop := tok.IsInfix hay

instance (hay tok : List Char) : Decidable (containsTok hay tok) := by
  unfold containsTok; infer_instance

/-- Numeric value of a digit run, as `int()` reads it. -/
def natOfDigits (ds : List Char) : Nat :=
  ds.foldl (fun a c => a * 10 + (c.toNat - 48)) 0

/-- Split a maximal leading digit run from a character list. -/
def spanDigits : List Char → List Char × List Char
  | [] => ([], [])
  | c :: cs =>
    if c.isDigit then
      let p := spanDigits cs
      (c :: p.1, p.2)
    else ([], c :: cs)

/-- Drop an expected literal from the front, or fail. -/
def dropLit : List Char → List Char → Option (List Char)
  | [], s => some s
  | _, [] => none
  | p :: ps, c :: cs => if p = c then dropLit ps cs else none

/-- `re.search(r'últimos (\d+) dias', s)`, returning the captured number of
the leftmost match.  Since the character after the greedy `\d+` must be a
space and a digit never is one, the regex never backtracks inside the digit
run, so the leftmost-longest scan below is exactly `re.search`. -/
def matchUltimosAux : List Char → Option Nat
  | [] => none
  | c :: cs =>
    match dropLit "últimos ".toList (c :: cs) with
    | some rest =>
      let p := spanDigits rest
      if p.1 ≠ [] ∧ (" dias".toList).IsPrefix p.2 then some (natOfDigits p.1)
      else matchUltimosAux cs
    | none => matchUltimosAux cs

/-- `re.search(r'(\d{2}/\d{2}/\d{4})', s)`: first position matching the
fixed-width day/month/year shape, returned as the three numbers. -/
def matchDateAux : List Char → Option (Nat × Nat × Nat)
  | [] => none
  | c :: cs =>
    match c, cs with
    | d1, d2 :: '/' :: m1 :: m2 :: '/' :: y1 :: y2 :: y3 :: y4 :: _ =>
      if d1.isDigit ∧ d2.isDigit ∧ m1.isDigit ∧ m2.isDigit ∧
          y1.isDigit ∧ y2.isDigit ∧ y3.isDigit ∧ y4.isDigit then
        some (natOfDigits [d1, d2], natOfDigits [m1, m2], natOfDigits [y1, y2, y3, y4])
      else matchDateAux cs
    | _, _ => matchDateAux cs

/-- `datetime.strptime(s, '%d/%m/%Y')` succeeds exactly on real calendar
dates of years 1..9999 (year 0000 and impossible days raise `ValueError`). -/
def strptimeDMYOk (d m y : Nat) : Prop :=
  1 ≤ y ∧ 1 ≤ m ∧ m ≤ 12 ∧ 1 ≤ d ∧ d ≤ daysInMonth y m

instance (d m y : Nat) : Decidable (strptimeDMYOk d m y) := by
  unfold strptimeDMYOk; infer_instance

/-! ## The period resolvers -/

/-- Lift a bounded-calendar step into the resolver's exception monad:
`none` is Python's uncaught `OverflowError`. -/
def liftO {α : Type} : Option α → Except Unit α
  | none => .error ()
  | some a => .ok a

/-- The period-resolution block of `get_expenses_summary` (main.py
273-295), textually repeated in `get_incomes_summary` (313-335).  Input is
the free-form period string and `now` in civil (Sao Paulo) time; output is
`some (start, end)` for a recognized phrase, `none` for an unrecognized
one, and `.error` where Python would raise out of the function. -/
def resolve_summary_period (period : List Char) (nowBrt : DT) : Except Unit (Option (DT × DT)) := do
  let t := nowBrt.startOfDay
  let pl := lowerChars period
  if containsTok pl "mês".toList then
    let e ← liftO t.addDays1O
    pure (some ({ t with date := ⟨t.date.y, t.date.m, 1⟩ }, e))
  else if containsTok pl "hoje".toList then
    let e ← liftO t.addDays1O
    pure (some (t, e))
  else if containsTok pl "ontem".toList then
    let st ← liftO (t.subDaysO 1)
    pure (some (st, t))
  else if containsTok pl "semana".toList ∨ containsTok pl "7 dias".toList then
    let st ← liftO (t.subDaysO 6)
    let e ← liftO t.addDays1O
    pure (some (st, e))
  else
    match matchUltimosAux pl with
    | some days =>
      let st ← liftO (t.addDaysIntO (1 - (days : Int)))
      let e ← liftO t.addDays1O
      pure (some (st, e))
    | none => pure none

/-- The period-resolution block of `get_reminders_for_period` (main.py
350-371): "hoje", "amanhã", or a literal `dd/mm/yyyy` date; an invalid
literal date (`ValueError` from `strptime`) yields the unresolved result. -/
def resolve_reminders_period (period : List Char) (nowBrt : DT) : Except Unit (Option (DT × DT)) := do
  let t := nowBrt.startOfDay
  let pl := lowerChars period
  if containsTok pl "hoje".toList then
    let e ← liftO t.addDays1O
    pure (some (t, e))
  else if containsTok pl "amanhã".toList then
    let st ← liftO t.addDays1O
    let e ← liftO st.addDays1O
    pure (some (st, e))
  else
    match matchDateAux pl with
    | some (d, m, y) =>
      if strptimeDMYOk d m y then
        let st : DT := ⟨⟨y, m, d⟩, 0, 0, 0⟩
        let e ← liftO st.addDays1O
        pure (some (st, e))
      else pure none
    | none => pure none

deriving instance DecidableEq for Except

/-! ## Order facts about the civil comparisons -/

theorem Date.lt_irr (a : Date) : ¬ Date.lt a a := by
  obtain ⟨y1, m1, d1⟩ := a
  simp only [Date.lt] at *
  omega

theorem Date.lt_tr {a b c : Date} (h1 : a.lt b) (h2 : b.lt c) : a.lt c := by
  obtain ⟨y1, m1, d1⟩ := a; obtain ⟨y2, m2, d2⟩ := b; obtain ⟨y3, m3, d3⟩ := c
  simp only [Date.lt] at *
  omega

theorem Date.lt_asym {a b : Date} (h : a.lt b) : ¬ b.lt a := by
  obtain ⟨y1, m1, d1⟩ := a; obtain ⟨y2, m2, d2⟩ := b
  simp only [Date.lt] at *
  omega

theorem Date.le_tot (a b : Date) : a.le b ∨ b.le a := by
  obtain ⟨y1, m1, d1⟩ := a; obtain ⟨y2, m2, d2⟩ := b
  simp only [Date.le, Date.lt, Date.mk.injEq] at *
  omega

theorem Date.le_tr {a b c : Date} (h1 : a.le b) (h2 : b.le c) : a.le c := by
  obtain ⟨y1, m1, d1⟩ := a; obtain ⟨y2, m2, d2⟩ := b; obtain ⟨y3, m3, d3⟩ := c
  simp only [Date.le, Date.lt, Date.mk.injEq] at *
  omega

theorem DT.ltIrr (a : DT) : ¬ DT.lt a a := by
  obtain ⟨⟨y1, m1, d1⟩, h1, i1, s1⟩ := a
  simp only [DT.lt, Date.lt, Date.mk.injEq] at *
  omega

theorem DT.ltTrans {a b c : DT} (h1 : a.lt b) (h2 : b.lt c) : a.lt c := by
  obtain ⟨⟨y1, m1, d1⟩, h1', i1, s1⟩ := a
  obtain ⟨⟨y2, m2, d2⟩, h2', i2, s2⟩ := b
  obtain ⟨⟨y3, m3, d3⟩, h3', i3, s3⟩ := c
  simp only [DT.lt, Date.lt, Date.mk.injEq] at *
  omega

theorem DT.ltAsym {a b : DT} (h : a.lt b) : ¬ b.lt a := by
  obtain ⟨⟨y1, m1, d1⟩, h1', i1, s1⟩ := a
  obtain ⟨⟨y2, m2, d2⟩, h2', i2, s2⟩ := b
  simp only [DT.lt, Date.lt, Date.mk.injEq] at *
  omega

set_option maxHeartbeats 1000000 in
theorem DT.leTot (a b : DT) : a.le b ∨ b.le a := by
  obtain ⟨⟨y1, m1, d1⟩, h1', i1, s1⟩ := a
  obtain ⟨⟨y2, m2, d2⟩, h2', i2, s2⟩ := b
  simp only [DT.le, DT.lt, DT.mk.injEq, Date.lt, Date.mk.injEq] at *
  omega

theorem DT.leTrans {a b c : DT} (h1 : a.le b) (h2 : b.le c) : a.le c := by
  obtain ⟨⟨y1, m1, d1⟩, h1', i1, s1⟩ := a
  obtain ⟨⟨y2, m2, d2⟩, h2', i2, s2⟩ := b
  obtain ⟨⟨y3, m3, d3⟩, h3', i3, s3⟩ := c
  simp only [DT.le, DT.lt, DT.mk.injEq, Date.lt, Date.mk.injEq] at *
  omega

theorem DT.le_of_not_lt {a b : DT} (h : ¬ DT.lt a b) : DT.le b a := by
  obtain ⟨⟨y1, m1, d1⟩, h1', i1, s1⟩ := a
  obtain ⟨⟨y2, m2, d2⟩, h2', i2, s2⟩ := b
  simp only [DT.le, DT.lt, DT.mk.injEq, Date.lt, Date.mk.injEq] at *
  omega

theorem DT.not_lt_of_le {a b : DT} (h : DT.le a b) : ¬ DT.lt b a := by
  obtain ⟨⟨y1, m1, d1⟩, h1', i1, s1⟩ := a
  obtain ⟨⟨y2, m2, d2⟩, h2', i2, s2⟩ := b
  simp only [DT.le, DT.lt, DT.mk.injEq, Date.lt, Date.mk.injEq] at *
  omega

theorem DT.lt_of_date_lt {a b : DT} (h : Date.lt a.date b.date) : DT.lt a b :=
  Or.inl h

theorem DT.date_le_of_le {a b : DT} (h : DT.le a b) : Date.le a.date b.date := by
  rcases h with h | rfl
  · rcases h with h | ⟨he, _⟩
    · exact Or.inl h
    · exact Or.inr he
  · exact Or.inr rfl

/-! ## Ledger records and the summary queries -/

/-- An `Expense` row (main.py 92-100).  `value` is the fixed-point currency
amount in cents; `category` is kept as characters because the query
compares it case-folded. -/
structure Expense where
  eid : Nat
  userId : Nat
  description : String
  value : Int
  category : Option (List Char)
  transaction_date : DT
deriving DecidableEq

/-- An `Income` row (main.py 102-109). -/
structure Income where
  iid : Nat
  userId : Nat
  description : String
  value : Int
  transaction_date : DT
deriving DecidableEq

/-- `ORDER BY transaction_date ASC` comparison for expenses. -/
def expDateLe (a b : Expense) : Prop := DT.le a.transaction_date b.transaction_date

instance : DecidableRel expDateLe := fun a b =>
  inferInstanceAs (Decidable (DT.le a.transaction_date b.transaction_date))

instance : IsTotal Expense expDateLe := ⟨fun a b => DT.leTot a.transaction_date b.transaction_date⟩

instance : IsTrans Expense expDateLe := ⟨fun _ _ _ => DT.leTrans⟩

/-- `ORDER BY transaction_date ASC` comparison for incomes. -/
def incDateLe (a b : Income) : Prop := DT.le a.transaction_date b.transaction_date

instance : DecidableRel incDateLe := fun a b =>
  inferInstanceAs (Decidable (DT.le a.transaction_date b.transaction_date))

instance : IsTotal Income incDateLe := ⟨fun a b => DT.leTot a.transaction_date b.transaction_date⟩

instance : IsTrans Income incDateLe := ⟨fun _ _ _ => DT.leTrans⟩

/-- The optional category filter of `get_expenses_summary` (main.py
303-304): SQL `lower(category) = lower(:category)`; a NULL stored category
never matches. -/
def categoryOk (category : Option (List Char)) (x : Expense) : Bool :=
  match category with
  | none => true
  | some c =>
    match x.category with
    | some xc => lowerChars xc = lowerChars c
    | none => false

/-- `get_expenses_summary` (main.py 272-310): resolve the period, then
query the user's expenses in the half-open interval, ordered by
transaction timestamp ascending, with the summed total; the unresolved
period returns `(None, 0.0, None, None)` without querying. -/
def get_expenses_summary (db : List Expense) (userId : Nat) (period : List Char)
    (category : Option (List Char)) (nowBrt : DT) :
    Except Unit (Option (List Expense) × Int × Option DT × Option DT) :=
  match resolve_summary_period period nowBrt with
  | .error e => .error e
  | .ok none => .ok (none, 0, none, none)
  | .ok (some (st, en)) =>
    let q := db.filter fun x =>
      decide (x.userId = userId) && decide (DT.le st x.transaction_date) &&
        decide (DT.lt x.transaction_date en) && categoryOk category x
    let lst := List.insertionSort expDateLe q
    .ok (some lst, (lst.map Expense.value).sum, some st, some en)

/-- `get_incomes_summary` (main.py 312-348): the same resolution rules and
interval query over incomes, with no category filter. -/
def get_incomes_summary (db : List Income) (userId : Nat) (period : List Char)
    (nowBrt : DT) : Except Unit (Option (List Income) × Int) :=
  match resolve_summary_period period nowBrt with
  | .error e => .error e
  | .ok none => .ok (none, 0)
  | .ok (some (st, en)) =>
    let q := db.filter fun x =>
      decide (x.userId = userId) && decide (DT.le st x.transaction_date) &&
        decide (DT.lt x.transaction_date en)
    let lst := List.insertionSort incDateLe q
    .ok (some lst, (lst.map Income.value).sum)

/-- Observable outcome of the `get_summary` action handler. -/
inductive SummaryOutcome
  | clarification : SummaryOutcome
  | report : List Expense → Int → DT → DT → SummaryOutcome
  | internalError : SummaryOutcome
deriving DecidableEq

/-- The `get_summary` branch of `handle_dify_action` (main.py 620-628,
with the enclosing catch-all of 763-765): an unresolved period (third
component `None`) sends the clarification message and performs no summary;
an exception escaping the helpers is answered by the generic error
message. -/
def handle_dify_action_get_summary (db : List Expense) (userId : Nat)
    (period : List Char) (category : Option (List Char)) (nowBrt : DT) :
    SummaryOutcome :=
  match get_expenses_summary db userId period category nowBrt with
  | .error _ => .internalError
  | .ok (lstO, tot, stO, enO) =>
    match stO with
    | none => .clarification
    | some st => .report (lstO.getD []) tot st (enO.getD st)

/-! ## Reminders: rows, the recurring engine, the notification scan -/

/-- A `Reminder` row (main.py 111-120): both punctual reminders
(`recurrence = none`) and monthly-recurring templates
(`recurrence = some "monthly"`) live in this one table.  The string flags
`is_sent` / `pre_reminder_sent` are embedded as `Bool`. -/
structure Reminder where
  rid : Nat
  userId : Nat
  description : String
  due : DT
  isSent : Bool
  preSent : Bool
  recurrence : Option String
deriving DecidableEq

inductive NoticeKind
  | preNotice
  | dueNotice
deriving DecidableEq

/-- One outbound WhatsApp message attempt of the scan, tagged with the
reminder it is about and whether the wire delivery succeeded. -/
structure Notice where
  rid : Nat
  kind : NoticeKind
  delivered : Bool
deriving DecidableEq

/-- `send_whatsapp_message` (main.py 441-450): posts the text to the
gateway and catches every exception internally, so its caller never
observes a delivery failure.  The oracle `dOk` is the underlying wire
result; it is recorded in the notice but is invisible to control flow. -/
def send_whatsapp_message (dOk : Nat → Bool) (rid : Nat) (k : NoticeKind) : Notice :=
  ⟨rid, k, dOk rid⟩

/-- Lines 778-782 of `generate_monthly_reminders`: the template's next
occurrence is `due + relativedelta(months=1)`; if that is still in the
past, jump to the current month with `now.replace(day=due.day,
hour=due.hour, minute=due.minute)` (which raises `ValueError` when that
day does not exist in the current month), advancing one more month if the
result is also past.  `none` is a raised exception. -/
def computeNextDue (now due : DT) : Option DT := do
  let n1 ← due.addMonthClampO
  if DT.lt n1 now then
    let n2 ← now.replaceDayHM due.date.d due.h due.mi
    if DT.lt n2 now then n2.addMonthClampO else pure n2
  else pure n1

/-- The duplicate-occurrence query of lines 787-793: a committed
non-recurring reminder of the same user and description whose `due_date`
falls inside the target civil day. -/
def existsSameDayInst (committed : List Reminder) (uid : Nat) (desc : String)
    (sD eD : DT) : Bool :=
  committed.any fun x =>
    decide (x.userId = uid) && decide (x.description = desc) &&
      decide (DT.le sD x.due) && decide (DT.lt x.due eD) &&
      decide (x.recurrence = none)

/-- A row produced by `db.add(Reminder(...))` before the commit assigns
its primary key. -/
structure PendingInst where
  userId : Nat
  description : String
  due : DT
deriving DecidableEq

/-- One loop iteration of `generate_monthly_reminders` (lines 776-809) on
the session's pending change-set: an exception rolls back every pending
change accumulated so far (`db.rollback()`) and the scan continues; the
duplicate check queries committed rows only (`autoflush=False`). -/
def genStep (now : DT) (committed : List Reminder)
    (acc : List PendingInst × List (Nat × DT)) (t : Reminder) :
    List PendingInst × List (Nat × DT) :=
  match (do
      let nd ← computeNextDue now t.due
      let eD ← nd.startOfDay.addDays1O
      pure (nd, eD) : Option (DT × DT)) with
  | none => ([], [])
  | some (nd, eD) =>
    if existsSameDayInst committed t.userId t.description nd.startOfDay eD then acc
    else (acc.1 ++ [⟨t.userId, t.description, nd⟩], acc.2 ++ [(t.rid, nd)])

/-- Next auto-increment primary key of the reminders table. -/
def nextId (db : List Reminder) : Nat :=
  db.foldr (fun r m => max r.rid m) 0 + 1

/-- Flush the pending cursor updates (`template.due_date = next_due_date`)
into the committed rows. -/
def applyMuts (pMut : List (Nat × DT)) (db : List Reminder) : List Reminder :=
  db.map fun r =>
    match pMut.lookup r.rid with
    | some nd => { r with due := nd }
    | none => r

/-- Flush the pending `db.add`ed instances, assigning fresh primary keys;
a new instance is punctual and unsent (lines 796-803). -/
def attachInsts (base : Nat) (ps : List PendingInst) : List Reminder :=
  ps.enum.map fun p => ⟨base + p.1, p.2.userId, p.2.description, p.2.due, false, false, none⟩

/-- `generate_monthly_reminders` (main.py 771-812): scan the monthly
templates, stage one next-occurrence instance and one cursor update per
template (skipping duplicates), roll back all pending changes when a
template raises, and commit once after the loop. -/
def generate_monthly_reminders (now : DT) (db : List Reminder) : List Reminder :=
  let templates := db.filter fun r => decide (r.recurrence = some "monthly")
  let pend := templates.foldl (genStep now db) ([], [])
  applyMuts pend.2 db ++ attachInsts (nextId db) pend.1

/-- Candidate filter of the proactive query (lines 821-825):
unsent, no pre-notice yet, due strictly in the future. -/
def isProCand (now : DT) (r : Reminder) : Bool :=
  !r.isSent && !r.preSent && decide (DT.lt now r.due)

/-- Lines 831-839: the pre-notice window opens at 20:00 civil-local on the
previous day when the due hour is before noon, and at 09:00 civil-local on
the due day otherwise.  `none` is a raised (and caught) calendar error. -/
def windowStartO (dueBrt : DT) : Option DT :=
  if dueBrt.h < 12 then dueBrt.date.predDO.map fun d => ⟨d, 20, 0, 0⟩
  else some { dueBrt with h := 9, mi := 0, s := 0 }

/-- Whether the proactive loop body reaches the send for a candidate:
the civil conversion succeeds, the window start is computable, and
`now_brt >= window`. -/
def preFire (nowBrt : DT) (r : Reminder) : Bool :=
  match r.due.toBRTO with
  | none => false
  | some dueBrt =>
    match windowStartO dueBrt with
    | none => false
    | some w => decide (DT.le w nowBrt)

/-- State change of one proactive iteration: the flag write survives only
when the per-item commit does not raise (`cf` tells which commits fail;
a failed commit is rolled back and the scan continues). -/
def preRow (cf : Nat → Bool) (nowUtc nowBrt : DT) (r : Reminder) : Reminder :=
  if isProCand nowUtc r && preFire nowBrt r && !cf r.rid then { r with preSent := true }
  else r

/-- Candidate filter of the exact-time query (lines 850-853): due now or
past, not yet sent. -/
def isDueCand (now : DT) (r : Reminder) : Bool :=
  decide (DT.le r.due now) && !r.isSent

/-- The exact-time loop body reaches its send iff the civil conversion of
the due date (for the message text) does not raise. -/
def exactOk (r : Reminder) : Bool := r.due.toBRTO.isSome

/-- State change of one exact-time iteration (lines 855-865). -/
def exactRow (cf : Nat → Bool) (now : DT) (r : Reminder) : Reminder :=
  if isDueCand now r && exactOk r && !cf r.rid then { r with isSent := true }
  else r

/-- `check_and_send_reminders` (main.py 815-867): the proactive phase over
the pre-fetched candidate list, each flag committed per item, then the
exact-time phase over the then-committed state.  Returns the new rows and
the attempted notices; an unrepresentable civil `now` (never reached in
practice) aborts before any send, which is the observable effect of the
uncaught conversion error. -/
def check_and_send_reminders (cf dOk : Nat → Bool) (nowUtc : DT) (db : List Reminder) :
    List Reminder × List Notice :=
  match nowUtc.toBRTO with
  | none => (db, [])
  | some nowBrt =>
    let db1 := db.map (preRow cf nowUtc nowBrt)
    let preN := ((db.filter (isProCand nowUtc)).filter (preFire nowBrt)).map
      fun r => send_whatsapp_message dOk r.rid .preNotice
    let db2 := db1.map (exactRow cf nowUtc)
    let exaN := ((db1.filter (isDueCand nowUtc)).filter exactOk).map
      fun r => send_whatsapp_message dOk r.rid .dueNotice
    (db2, preN ++ exaN)

/-- The scheduled trigger endpoint (main.py 888-896): one maintenance tick
runs `generate_monthly_reminders` and then `check_and_send_reminders` on
the same session; the specification names this `runMaintenanceTick`. -/
def runMaintenanceTick (cf dOk : Nat → Bool) (now : DT) (db : List Reminder) :
    List Reminder × List Notice :=
  check_and_send_reminders cf dOk now (generate_monthly_reminders now db)

/-! ## Single-use dashboard tokens -/

/-- An `AuthToken` row (main.py 123-129). -/
structure AuthToken where
  tid : Nat
  token : String
  userId : Nat
  expires_at : DT
deriving DecidableEq

/-- A `User` row, reduced to the fields `verify_token` touches.  The phone
is kept as characters because the endpoint splits it at `'@'`. -/
structure UserR where
  uid : Nat
  phone : List Char
deriving DecidableEq

/-- `verify_token` (main.py 898-909): a stored token that is still valid
is consumed and answers with the bare phone number; a stored token that is
no longer valid is also deleted, and then the 404 (`'Token inválido ou
expirado.'`) is raised; an unknown token is a bare 404.  `.error ()` is
the HTTP 404. -/
def verify_token (tokens : List AuthToken) (users : List UserR) (tok : String)
    (now : DT) : Except Unit (List Char) × List AuthToken :=
  match tokens.find? (fun t => t.token == tok) with
  | some tobj =>
    if DT.lt now tobj.expires_at then
      let phone := ((users.find? (fun u => u.uid == tobj.userId)).map UserR.phone).getD []
      (.ok (phone.takeWhile fun c => c ≠ '@'),
        tokens.filter fun t => !(t.tid == tobj.tid))
    else
      (.error (), tokens.filter fun t => !(t.tid == tobj.tid))
  | none => (.error (), tokens)

/-! ## Claim C10: token consumption -/

/-- Claim C10: `verify_token` deletes any presented token that exists in
the store regardless of validity: a token whose `expires_at` is not in the
future is deleted before the 404 is raised, and a second presentation of
the same token string also fails with 404, since the row is gone. -/
theorem C10_expired_token_consumed
    (tokens : List AuthToken) (users : List UserR) (tobj : AuthToken) (now now2 : DT)
    (hmem : tobj ∈ tokens)
    (huniq : ∀ a ∈ tokens, ∀ b ∈ tokens, a.token = b.token → a = b)
    (hexp : ¬ DT.lt now tobj.expires_at) :
    (verify_token tokens users tobj.token now).1 = .error () ∧
    tobj ∉ (verify_token tokens users tobj.token now).2 ∧
    (verify_token (verify_token tokens users tobj.token now).2 users tobj.token now2).1
      = .error () := by
  have hfind : tokens.find? (fun t => t.token == tobj.token) = some tobj := by
    cases hf : tokens.find? (fun t => t.token == tobj.token) with
    | none =>
      exfalso
      have := List.find?_eq_none.mp hf tobj hmem
      simp at this
    | some x =>
      have hxmem := List.mem_of_find?_eq_some hf
      have hxp := List.find?_some hf
      have hx : x = tobj := huniq x hxmem tobj hmem (by simpa using hxp)
      rw [hx]
  have hres : verify_token tokens users tobj.token now
      = (.error (), tokens.filter fun t => !(t.tid == tobj.tid)) := by
    unfold verify_token
    rw [hfind]
    simp only [if_neg hexp]
  refine ⟨by rw [hres], ?_, ?_⟩
  · rw [hres]
    simp [List.mem_filter]
  · rw [hres]
    have hnone : (tokens.filter fun t => !(t.tid == tobj.tid)).find?
        (fun t => t.token == tobj.token) = none := by
      rw [List.find?_eq_none]
      intro t ht
      rw [List.mem_filter] at ht
      obtain ⟨htmem, htid⟩ := ht
      intro hq
      have : t = tobj := huniq t htmem tobj hmem (by simpa using hq)
      rw [this] at htid
      simp at htid
    unfold verify_token
    rw [hnone]

/-- Witness for C10 at a concrete store: an expired token answers 404, is
gone from the store, and a replay answers 404 again. -/
theorem C10_witness :
    (verify_token [⟨1, "abc", 7, ⟨⟨2024, 4, 15⟩, 12, 0, 0⟩⟩] [⟨7, "5511999@s.whatsapp.net".toList⟩]
      "abc" ⟨⟨2024, 4, 15⟩, 12, 0, 0⟩).1 = .error () ∧
    (⟨1, "abc", 7, ⟨⟨2024, 4, 15⟩, 12, 0, 0⟩⟩ : AuthToken) ∉
      (verify_token [⟨1, "abc", 7, ⟨⟨2024, 4, 15⟩, 12, 0, 0⟩⟩] [⟨7, "5511999@s.whatsapp.net".toList⟩]
        "abc" ⟨⟨2024, 4, 15⟩, 12, 0, 0⟩).2 ∧
    (verify_token
      (verify_token [⟨1, "abc", 7, ⟨⟨2024, 4, 15⟩, 12, 0, 0⟩⟩] [⟨7, "5511999@s.whatsapp.net".toList⟩]
        "abc" ⟨⟨2024, 4, 15⟩, 12, 0, 0⟩).2
      [⟨7, "5511999@s.whatsapp.net".toList⟩] "abc" ⟨⟨2024, 4, 15⟩, 12, 30, 0⟩).1 = .error () :=
  C10_expired_token_consumed
    [⟨1, "abc", 7, ⟨⟨2024, 4, 15⟩, 12, 0, 0⟩⟩] [⟨7, "5511999@s.whatsapp.net".toList⟩]
    ⟨1, "abc", 7, ⟨⟨2024, 4, 15⟩, 12, 0, 0⟩⟩ ⟨⟨2024, 4, 15⟩, 12, 0, 0⟩ ⟨⟨2024, 4, 15⟩, 12, 30, 0⟩
    (by decide) (by decide) (by decide)

/-! ## Claim C9: unresolvable period -/

/-- No resolution rule of the summary resolver matches the period string. -/
def noSummaryRule (period : List Char) : Prop :=
  ¬ containsTok (lowerChars period) "mês".toList ∧
  ¬ containsTok (lowerChars period) "hoje".toList ∧
  ¬ containsTok (lowerChars period) "ontem".toList ∧
  ¬ containsTok (lowerChars period) "semana".toList ∧
  ¬ containsTok (lowerChars period) "7 dias".toList ∧
  matchUltimosAux (lowerChars period) = none

instance (period : List Char) : Decidable (noSummaryRule period) := by
  unfold noSummaryRule; infer_instance

/-- Claim C9: for a period string matching no resolution rule,
`get_expenses_summary` performs no record query — the result is the
constant `(None, 0.0, None, None)`, for every database — and the
`get_summary` branch of `handle_dify_action` answers with the
clarification message instead of a summary. -/
theorem C9_unresolved_clarification (period : List Char) (h : noSummaryRule period)
    (db : List Expense) (uid : Nat) (cat : Option (List Char)) (nowBrt : DT) :
    get_expenses_summary db uid period cat nowBrt = .ok (none, 0, none, none) ∧
    handle_dify_action_get_summary db uid period cat nowBrt = .clarification := by
  obtain ⟨h1, h2, h3, h4, h5, h6⟩ := h
  have hres : resolve_summary_period period nowBrt = .ok none := by
    unfold resolve_summary_period
    rw [if_neg h1, if_neg h2, if_neg h3, if_neg (by exact not_or.mpr ⟨h4, h5⟩), h6]
    rfl
  constructor
  · unfold get_expenses_summary
    rw [hres]
  · unfold handle_dify_action_get_summary get_expenses_summary
    rw [hres]

/-- Witness for C9 at a concrete unrecognized phrase. -/
theorem C9_witness :
    get_expenses_summary [] 1 "gastos de março".toList none ⟨⟨2024, 3, 15⟩, 10, 0, 0⟩
      = .ok (none, 0, none, none) ∧
    handle_dify_action_get_summary [] 1 "gastos de março".toList none ⟨⟨2024, 3, 15⟩, 10, 0, 0⟩
      = .clarification :=
  C9_unresolved_clarification "gastos de março".toList (by decide) [] 1 none
    ⟨⟨2024, 3, 15⟩, 10, 0, 0⟩

/-! ## Claim C8: the month rule -/

theorem Date.succDO_eq {a b : Date} (h : a.succDO = some b) : b = a.succD := by
  unfold Date.succDO at h
  split at h
  · simp at h
  · exact (Option.some_inj.mp h).symm

theorem DT.addDays1O_eq {t e : DT} (h : t.addDays1O = some e) :
    e = ⟨t.date.succD, t.h, t.mi, t.s⟩ := by
  unfold DT.addDays1O DT.addDaysO at h
  cases hs : t.date.succDO with
  | none => simp [Date.addDaysO, hs] at h
  | some b =>
    have hb : b = t.date.succD := Date.succDO_eq hs
    subst hb
    simp only [Date.addDaysO, hs, Option.map_some'] at h
    exact (Option.some_inj.mp h).symm

/-- Claim C8: every period string containing the month token resolves to
the interval whose start is the first day of the current civil month at
00:00 and whose end is start-of-today plus one day, and
`get_expenses_summary` reports exactly those two boundaries. -/
theorem C8_month_rule (period : List Char) (nowBrt : DT)
    (h : containsTok (lowerChars period) "mês".toList)
    (hok : (nowBrt.startOfDay.addDays1O).isSome) :
    resolve_summary_period period nowBrt =
      .ok (some (⟨⟨nowBrt.date.y, nowBrt.date.m, 1⟩, 0, 0, 0⟩,
        ⟨nowBrt.date.succD, 0, 0, 0⟩)) ∧
    ∀ db uid cat, ∃ lst tot,
      get_expenses_summary db uid period cat nowBrt =
        .ok (some lst, tot, some ⟨⟨nowBrt.date.y, nowBrt.date.m, 1⟩, 0, 0, 0⟩,
          some ⟨nowBrt.date.succD, 0, 0, 0⟩) := by
  obtain ⟨e, he⟩ := Option.isSome_iff_exists.mp hok
  have hev : e = ⟨nowBrt.date.succD, 0, 0, 0⟩ := DT.addDays1O_eq he
  have hres : resolve_summary_period period nowBrt =
      .ok (some (⟨⟨nowBrt.date.y, nowBrt.date.m, 1⟩, 0, 0, 0⟩,
        ⟨nowBrt.date.succD, 0, 0, 0⟩)) := by
    unfold resolve_summary_period
    rw [if_pos h, he, hev]
    rfl
  refine ⟨hres, fun db uid cat => ?_⟩
  unfold get_expenses_summary
  rw [hres]
  exact ⟨_, _, rfl⟩

/-- Witness for C8, scenario A of the specification: now = 2024-03-15
10:00 civil-local and the phrase "este mês" resolve to
`[2024-03-01 00:00, 2024-03-16 00:00)`. -/
theorem C8_witness :
    resolve_summary_period "este mês".toList ⟨⟨2024, 3, 15⟩, 10, 0, 0⟩ =
      .ok (some (⟨⟨2024, 3, 1⟩, 0, 0, 0⟩, ⟨⟨2024, 3, 16⟩, 0, 0, 0⟩)) ∧
    ∀ db uid cat, ∃ lst tot,
      get_expenses_summary db uid "este mês".toList cat ⟨⟨2024, 3, 15⟩, 10, 0, 0⟩ =
        .ok (some lst, tot, some ⟨⟨2024, 3, 1⟩, 0, 0, 0⟩, some ⟨⟨2024, 3, 16⟩, 0, 0, 0⟩) := by
  exact C8_month_rule "este mês".toList ⟨⟨2024, 3, 15⟩, 10, 0, 0⟩ (by decide) (by decide)

/-! ## Claim C2: day-of-month clamping -/

theorem Date.addMonthClampO_day {a b : Date} (h : a.addMonthClampO = some b)
    (hover : daysInMonth b.y b.m < a.d) : b.d = daysInMonth b.y b.m := by
  unfold Date.addMonthClampO at h
  split at h
  · split at h
    · simp at h
    · rw [← Option.some_inj.mp h] at hover ⊢
      simp only at hover ⊢
      omega
  · rw [← Option.some_inj.mp h] at hover ⊢
    simp only at hover ⊢
    omega

/-- Counterexample to claim C2 as stated.  The template is anchored on
January 31 2024 and the tick runs on April 15 2024: the one-month advance
lands on February 29, which is already past, so the engine takes the
catch-up path `now.replace(day=31, ...)`; April has no day 31, the
`replace` raises `ValueError`, the template is rolled back and skipped,
and no clamped instance is created — the claim promised an instance on
the clamped day (April 30). -/
theorem C2_counterexample :
    generate_monthly_reminders ⟨⟨2024, 4, 15⟩, 12, 0, 0⟩
        [⟨2, 1, "conta de luz", ⟨⟨2024, 1, 31⟩, 10, 0, 0⟩, false, false, some "monthly"⟩] =
      [⟨2, 1, "conta de luz", ⟨⟨2024, 1, 31⟩, 10, 0, 0⟩, false, false, some "monthly"⟩] ∧
    computeNextDue ⟨⟨2024, 4, 15⟩, 12, 0, 0⟩ ⟨⟨2024, 1, 31⟩, 10, 0, 0⟩ = none := by
  decide

/-- Claim C2 (amended): in the one-month-advance path — the stored
`due_date` plus one month is not in the past — `relativedelta` clamps a
day-of-month that does not exist in the target month down to that month's
last valid day, and the punctual instance is created on that clamped day
(a day-31 template expanded into April yields April 30); in the catch-up
path, a day-of-month missing from the current month instead raises, and
the template is skipped with no instance. -/
theorem C2_amended_clamped_instance (t : Reminder) (now n1 : DT)
    (hrec : t.recurrence = some "monthly")
    (hn1 : t.due.addMonthClampO = some n1)
    (hnotpast : ¬ DT.lt n1 now)
    (hend : (n1.startOfDay.addDays1O).isSome)
    (hover : daysInMonth n1.date.y n1.date.m < t.due.date.d) :
    generate_monthly_reminders now [t] =
      [{ t with due := n1 },
       ⟨t.rid + 1, t.userId, t.description, n1, false, false, none⟩] ∧
    n1.date.d = daysInMonth n1.date.y n1.date.m := by
  obtain ⟨e, he⟩ := Option.isSome_iff_exists.mp hend
  have hdayclamp : n1.date.d = daysInMonth n1.date.y n1.date.m := by
    have hm : t.due.date.addMonthClampO = some n1.date := by
      unfold DT.addMonthClampO at hn1
      cases hmm : t.due.date.addMonthClampO with
      | none => rw [hmm] at hn1; simp at hn1
      | some dd =>
        rw [hmm] at hn1
        simp only [Option.map_some'] at hn1
        have hd : n1.date = dd := by rw [← Option.some_inj.mp hn1]
        rw [hd]
    exact Date.addMonthClampO_day hm hover
  have hnext : computeNextDue now t.due = some n1 := by
    unfold computeNextDue
    rw [hn1]
    simp [hnotpast]
  refine ⟨?_, hdayclamp⟩
  unfold generate_monthly_reminders
  simp only [List.filter, hrec, decide_eq_true_eq, List.foldl]
  unfold genStep
  rw [hnext]
  simp only [Option.bind_eq_bind, Option.some_bind, he]
  have hnodup : existsSameDayInst [t] t.userId t.description n1.startOfDay e = false := by
    unfold existsSameDayInst
    simp [hrec]
  rw [hnodup]
  simp only [Bool.false_eq_true, if_false, List.nil_append]
  unfold applyMuts attachInsts nextId
  simp [List.lookup, List.enum, hrec]

/-- Witness for the amended C2, scenario C of the specification: a day-31
template (March 31) expanded into April is clamped to April 30 and the
instance is created on that day. -/
theorem C2_witness :
    generate_monthly_reminders ⟨⟨2024, 4, 10⟩, 12, 0, 0⟩
        [⟨1, 1, "aluguel", ⟨⟨2024, 3, 31⟩, 9, 0, 0⟩, false, false, some "monthly"⟩] =
      [⟨1, 1, "aluguel", ⟨⟨2024, 4, 30⟩, 9, 0, 0⟩, false, false, some "monthly"⟩,
       ⟨2, 1, "aluguel", ⟨⟨2024, 4, 30⟩, 9, 0, 0⟩, false, false, none⟩] ∧
    (⟨⟨2024, 4, 30⟩, 9, 0, 0⟩ : DT).date.d = daysInMonth 2024 4 := by
  exact C2_amended_clamped_instance
    ⟨1, 1, "aluguel", ⟨⟨2024, 3, 31⟩, 9, 0, 0⟩, false, false, some "monthly"⟩
    ⟨⟨2024, 4, 10⟩, 12, 0, 0⟩ ⟨⟨2024, 4, 30⟩, 9, 0, 0⟩
    (by decide) (by decide) (by decide) (by decide) (by decide)

/-! ## Claim C4: failure isolation in the recurring engine -/

/-- Counterexample to claim C4 as stated.  With the scan order
`[internet-template (processable), day-31-template (raises in April)]`,
the `db.rollback()` of the failing second template also discards the
uncommitted instance and cursor update already staged for the first
template, so the whole scan commits nothing — while the first template
alone would have produced its instance (second conjunct).  The claim
promised that previously processed templates' changes are preserved and
that each mutation is committed as its own atomic unit immediately. -/
theorem C4_counterexample :
    generate_monthly_reminders ⟨⟨2024, 4, 15⟩, 12, 0, 0⟩
        [⟨1, 1, "internet", ⟨⟨2024, 3, 20⟩, 10, 0, 0⟩, false, false, some "monthly"⟩,
         ⟨2, 1, "conta de luz", ⟨⟨2024, 1, 31⟩, 10, 0, 0⟩, false, false, some "monthly"⟩] =
      [⟨1, 1, "internet", ⟨⟨2024, 3, 20⟩, 10, 0, 0⟩, false, false, some "monthly"⟩,
       ⟨2, 1, "conta de luz", ⟨⟨2024, 1, 31⟩, 10, 0, 0⟩, false, false, some "monthly"⟩] ∧
    generate_monthly_reminders ⟨⟨2024, 4, 15⟩, 12, 0, 0⟩
        [⟨1, 1, "internet", ⟨⟨2024, 3, 20⟩, 10, 0, 0⟩, false, false, some "monthly"⟩] =
      [⟨1, 1, "internet", ⟨⟨2024, 4, 20⟩, 10, 0, 0⟩, false, false, some "monthly"⟩,
       ⟨2, 1, "internet", ⟨⟨2024, 4, 20⟩, 10, 0, 0⟩, false, false, none⟩] := by
  decide

/-- Claim C4 (amended): a failure processing one template does not abort
the scan — later templates are still processed — but the rollback discards
every uncommitted change staged by the earlier templates of the same scan,
and all surviving changes are committed together once after the loop, not
per entity: with scan order `[a (ok), b (raises), c (ok)]`, only `c`'s
cursor update and instance reach the store; `a` is left untouched. -/
theorem C4_amended_rollback_discards_scan (a b c : Reminder) (now na nc : DT)
    (hra : a.recurrence = some "monthly") (hrb : b.recurrence = some "monthly")
    (hrc : c.recurrence = some "monthly")
    (hna : a.due.addMonthClampO = some na) (hnapast : ¬ DT.lt na now)
    (henda : (na.startOfDay.addDays1O).isSome)
    (hbfail : computeNextDue now b.due = none)
    (hnc : c.due.addMonthClampO = some nc) (hncpast : ¬ DT.lt nc now)
    (hendc : (nc.startOfDay.addDays1O).isSome)
    (hac : a.rid ≠ c.rid) (hbc : b.rid ≠ c.rid) :
    generate_monthly_reminders now [a, b, c] =
      [a, b, { c with due := nc },
       ⟨nextId [a, b, c], c.userId, c.description, nc, false, false, none⟩] := by
  obtain ⟨ea, hea⟩ := Option.isSome_iff_exists.mp henda
  obtain ⟨ec, hec⟩ := Option.isSome_iff_exists.mp hendc
  have hnexta : computeNextDue now a.due = some na := by
    unfold computeNextDue
    rw [hna]
    simp [hnapast]
  have hnextc : computeNextDue now c.due = some nc := by
    unfold computeNextDue
    rw [hnc]
    simp [hncpast]
  unfold generate_monthly_reminders
  simp only [List.filter, hra, hrb, hrc, decide_eq_true_eq, List.foldl]
  unfold genStep
  rw [hnexta, hbfail, hnextc]
  simp only [Option.bind_eq_bind, Option.some_bind, Option.none_bind, hea, hec]
  have hdupc : existsSameDayInst [a, b, c] c.userId c.description nc.startOfDay ec = false := by
    unfold existsSameDayInst
    simp [hra, hrb, hrc]
  rw [hdupc]
  simp only [Bool.false_eq_true, if_false, List.nil_append]
  unfold applyMuts attachInsts
  have hane : (a.rid == c.rid) = false := beq_eq_false_iff_ne.mpr hac
  have hbne : (b.rid == c.rid) = false := beq_eq_false_iff_ne.mpr hbc
  simp [List.lookup, hane, hbne, List.enum, hrc]

/-- Witness for the amended C4: with templates `[a, b, c]` where `b`'s
catch-up day is missing from April, only `c`'s changes are committed. -/
theorem C4_witness :
    generate_monthly_reminders ⟨⟨2024, 4, 15⟩, 12, 0, 0⟩
        [⟨1, 1, "internet", ⟨⟨2024, 3, 20⟩, 10, 0, 0⟩, false, false, some "monthly"⟩,
         ⟨2, 1, "conta de luz", ⟨⟨2024, 1, 31⟩, 10, 0, 0⟩, false, false, some "monthly"⟩,
         ⟨3, 1, "academia", ⟨⟨2024, 3, 25⟩, 8, 0, 0⟩, false, false, some "monthly"⟩] =
      [⟨1, 1, "internet", ⟨⟨2024, 3, 20⟩, 10, 0, 0⟩, false, false, some "monthly"⟩,
       ⟨2, 1, "conta de luz", ⟨⟨2024, 1, 31⟩, 10, 0, 0⟩, false, false, some "monthly"⟩,
       ⟨3, 1, "academia", ⟨⟨2024, 4, 25⟩, 8, 0, 0⟩, false, false, some "monthly"⟩,
       ⟨4, 1, "academia", ⟨⟨2024, 4, 25⟩, 8, 0, 0⟩, false, false, none⟩] := by
  exact C4_amended_rollback_discards_scan
    ⟨1, 1, "internet", ⟨⟨2024, 3, 20⟩, 10, 0, 0⟩, false, false, some "monthly"⟩
    ⟨2, 1, "conta de luz", ⟨⟨2024, 1, 31⟩, 10, 0, 0⟩, false, false, some "monthly"⟩
    ⟨3, 1, "academia", ⟨⟨2024, 3, 25⟩, 8, 0, 0⟩, false, false, some "monthly"⟩
    ⟨⟨2024, 4, 15⟩, 12, 0, 0⟩ ⟨⟨2024, 4, 20⟩, 10, 0, 0⟩ ⟨⟨2024, 4, 25⟩, 8, 0, 0⟩
    (by decide) (by decide) (by decide) (by decide) (by decide) (by decide)
    (by decide) (by decide) (by decide) (by decide) (by decide) (by decide)

/-! ## Claim C3: delivery failure in the exact-time scan -/

/-- Counterexample to claim C3 as stated.  The delivery oracle reports a
wire failure (`delivered = false` in the attempted notice), yet the
reminder is still flagged `is_sent = true` — `send_whatsapp_message`
swallows every delivery exception, so the loop cannot see the failure —
and the next tick dispatches nothing for it.  The claim promised that a
failed reminder keeps `is_sent = 'false'` and is dispatched again. -/
theorem C3_counterexample :
    check_and_send_reminders (fun _ => false) (fun _ => false) ⟨⟨2024, 4, 15⟩, 13, 0, 0⟩
        [⟨1, 7, "pagar boleto", ⟨⟨2024, 4, 15⟩, 12, 0, 0⟩, false, false, none⟩] =
      ([⟨1, 7, "pagar boleto", ⟨⟨2024, 4, 15⟩, 12, 0, 0⟩, true, false, none⟩],
       [⟨1, .dueNotice, false⟩]) ∧
    check_and_send_reminders (fun _ => false) (fun _ => false) ⟨⟨2024, 4, 15⟩, 13, 5, 0⟩
        [⟨1, 7, "pagar boleto", ⟨⟨2024, 4, 15⟩, 12, 0, 0⟩, true, false, none⟩] =
      ([⟨1, 7, "pagar boleto", ⟨⟨2024, 4, 15⟩, 12, 0, 0⟩, true, false, none⟩], []) := by
  decide

/-- Claim C3 (amended): in the exact-time scan, a failure of one
reminder's processing does not block the other due reminders, and the
attempted messages go out independently of the wire outcome; but the two
failure kinds behave differently.  A per-item exception after the send
(here: the commit for `r1`, `cf r1.rid = true`) is rolled back — `r1`
keeps `is_sent = false` and is dispatched again on the next tick — while a
wire delivery failure is swallowed inside `send_whatsapp_message`, so the
reminder is marked sent regardless of `dOk` and is not retried. -/
theorem C3_amended_failure_modes (r1 r2 : Reminder) (now now2 : DT)
    (cf dOk : Nat → Bool)
    (h1due : DT.le r1.due now) (h1sent : r1.isSent = false)
    (h2due : DT.le r2.due now) (h2sent : r2.isSent = false)
    (h1ok : (r1.due.toBRTO).isSome) (h2ok : (r2.due.toBRTO).isSome)
    (hnbrt : (now.toBRTO).isSome)
    (hcf1 : cf r1.rid = true) (hcf2 : cf r2.rid = false) :
    check_and_send_reminders cf dOk now [r1, r2] =
      ([r1, { r2 with isSent := true }],
       [send_whatsapp_message dOk r1.rid .dueNotice,
        send_whatsapp_message dOk r2.rid .dueNotice]) ∧
    (∀ dOk2, DT.le r1.due now2 → (now2.toBRTO).isSome →
      check_and_send_reminders (fun _ => false) dOk2 now2 [r1, { r2 with isSent := true }] =
        ([{ r1 with isSent := true }, { r2 with isSent := true }],
         [send_whatsapp_message dOk2 r1.rid .dueNotice])) := by
  obtain ⟨nb, hnb⟩ := Option.isSome_iff_exists.mp hnbrt
  constructor
  · unfold check_and_send_reminders
    rw [hnb]
    unfold preRow isProCand exactRow isDueCand exactOk
    simp [h1sent, h2sent, hcf1, hcf2, decide_eq_true h1due, decide_eq_true h2due,
      DT.not_lt_of_le h1due, DT.not_lt_of_le h2due, h1ok, h2ok, h1due, h2due]
  · intro dOk2 h1due2 hsome2
    obtain ⟨nb2, hnb2⟩ := Option.isSome_iff_exists.mp hsome2
    unfold check_and_send_reminders
    rw [hnb2]
    unfold preRow isProCand exactRow isDueCand exactOk
    simp [h1sent, h2sent, decide_eq_true h1due2, DT.not_lt_of_le h1due2, h1ok, h1due2]

/-- Witness for the amended C3: reminder 1's per-item commit raises
(flag kept false, retried and dispatched again next tick), reminder 2's
delivery fails on the wire (yet it is flagged sent). -/
theorem C3_witness :
    check_and_send_reminders (fun n => n == 1) (fun _ => false) ⟨⟨2024, 4, 15⟩, 16, 0, 0⟩
        [⟨1, 7, "boleto a", ⟨⟨2024, 4, 15⟩, 15, 0, 0⟩, false, false, none⟩,
         ⟨2, 7, "boleto b", ⟨⟨2024, 4, 15⟩, 15, 30, 0⟩, false, false, none⟩] =
      ([⟨1, 7, "boleto a", ⟨⟨2024, 4, 15⟩, 15, 0, 0⟩, false, false, none⟩,
        ⟨2, 7, "boleto b", ⟨⟨2024, 4, 15⟩, 15, 30, 0⟩, true, false, none⟩],
       [⟨1, .dueNotice, false⟩, ⟨2, .dueNotice, false⟩]) ∧
    check_and_send_reminders (fun _ => false) (fun _ => true) ⟨⟨2024, 4, 15⟩, 16, 10, 0⟩
        [⟨1, 7, "boleto a", ⟨⟨2024, 4, 15⟩, 15, 0, 0⟩, false, false, none⟩,
         ⟨2, 7, "boleto b", ⟨⟨2024, 4, 15⟩, 15, 30, 0⟩, true, false, none⟩] =
      ([⟨1, 7, "boleto a", ⟨⟨2024, 4, 15⟩, 15, 0, 0⟩, true, false, none⟩,
        ⟨2, 7, "boleto b", ⟨⟨2024, 4, 15⟩, 15, 30, 0⟩, true, false, none⟩],
       [⟨1, .dueNotice, true⟩]) := by
  have h := C3_amended_failure_modes
    ⟨1, 7, "boleto a", ⟨⟨2024, 4, 15⟩, 15, 0, 0⟩, false, false, none⟩
    ⟨2, 7, "boleto b", ⟨⟨2024, 4, 15⟩, 15, 30, 0⟩, false, false, none⟩
    ⟨⟨2024, 4, 15⟩, 16, 0, 0⟩ ⟨⟨2024, 4, 15⟩, 16, 10, 0⟩
    (fun n => n == 1) (fun _ => false)
    (by decide) (by decide) (by decide) (by decide) (by decide) (by decide)
    (by decide) (by decide) (by decide)
  exact ⟨h.1, h.2 (fun _ => true) (by decide) (by decide)⟩

/-! ## Claim C7: half-open query boundaries and ordering -/

/-- Counterexample to claim C7 as stated.  The period "últimos 0 dias" is
accepted by the dynamic rule and resolves to the empty interval
`[2024-03-16 00:00, 2024-03-16 00:00)`; the expense of the queried user
timestamped exactly at `start` is then NOT included — the summary is empty
— although the claim promises inclusion at `start` for every resolved
interval. -/
theorem C7_counterexample :
    get_expenses_summary
        [⟨1, 1, "pão", 500, none, ⟨⟨2024, 3, 16⟩, 0, 0, 0⟩⟩] 1
        "últimos 0 dias".toList none ⟨⟨2024, 3, 15⟩, 10, 0, 0⟩ =
      .ok (some [], 0, some ⟨⟨2024, 3, 16⟩, 0, 0, 0⟩, some ⟨⟨2024, 3, 16⟩, 0, 0, 0⟩) ∧
    (⟨1, 1, "pão", 500, none, ⟨⟨2024, 3, 16⟩, 0, 0, 0⟩⟩ : Expense).transaction_date
      = ⟨⟨2024, 3, 16⟩, 0, 0, 0⟩ ∧
    (⟨1, 1, "pão", 500, none, ⟨⟨2024, 3, 16⟩, 0, 0, 0⟩⟩ : Expense).userId = 1 := by
  decide

/-- Claim C7 (amended): for every resolved interval, an expense
timestamped exactly at `end` is excluded and the records are returned
ordered by transaction timestamp ascending; an expense of the queried user
timestamped exactly at `start` (and passing the category filter) is
included provided the interval is nonempty (`start < end` — which holds
for every rule except the degenerate dynamic "últimos 0 dias"). -/
theorem C7_boundary_and_order (db : List Expense) (uid : Nat) (period : List Char)
    (cat : Option (List Char)) (nowBrt : DT) (lst : List Expense) (tot : Int) (st en : DT)
    (h : get_expenses_summary db uid period cat nowBrt = .ok (some lst, tot, some st, some en)) :
    (∀ x : Expense, x.transaction_date = en → x ∉ lst) ∧
    (DT.lt st en → ∀ x ∈ db, x.userId = uid → categoryOk cat x = true →
      x.transaction_date = st → x ∈ lst) ∧
    List.Sorted expDateLe lst := by
  unfold get_expenses_summary at h
  cases hres : resolve_summary_period period nowBrt with
  | error e =>
    rw [hres] at h
    exact absurd h (by simp)
  | ok o =>
    rw [hres] at h
    cases o with
    | none => simp at h
    | some p =>
      obtain ⟨st', en'⟩ := p
      simp only [Except.ok.injEq, Prod.mk.injEq, Option.some.injEq] at h
      obtain ⟨hlst, htot, hst, hen⟩ := h
      subst hst
      subst hen
      have hperm := List.perm_insertionSort expDateLe (db.filter fun x =>
        decide (x.userId = uid) && decide (DT.le st' x.transaction_date) &&
          decide (DT.lt x.transaction_date en') && categoryOk cat x)
      refine ⟨?_, ?_, ?_⟩
      · intro x hxen hxmem
        rw [← hlst] at hxmem
        have hxq := hperm.mem_iff.mp hxmem
        rw [List.mem_filter] at hxq
        have := hxq.2
        simp only [Bool.and_eq_true, decide_eq_true_eq] at this
        exact DT.ltIrr en' (hxen ▸ this.1.2)
      · intro hlt x hxdb hxuid hxcat hxst
        rw [← hlst]
        refine hperm.mem_iff.mpr ?_
        rw [List.mem_filter]
        refine ⟨hxdb, ?_⟩
        simp only [Bool.and_eq_true, decide_eq_true_eq]
        exact ⟨⟨⟨hxuid, Or.inr hxst.symm⟩, hxst ▸ hlt⟩, hxcat⟩
      · rw [← hlst]
        exact List.sorted_insertionSort expDateLe _

/-- Witness for the amended C7, with "hoje" on 2024-03-15: the expense at
the interval's start is included, the one exactly at its end is excluded,
and the result is sorted ascending. -/
theorem C7_witness :
    ((⟨2, 1, "café", 300, none, ⟨⟨2024, 3, 16⟩, 0, 0, 0⟩⟩ : Expense) ∉
      ([⟨1, 1, "pão", 500, none, ⟨⟨2024, 3, 15⟩, 0, 0, 0⟩⟩] : List Expense)) ∧
    ((⟨1, 1, "pão", 500, none, ⟨⟨2024, 3, 15⟩, 0, 0, 0⟩⟩ : Expense) ∈
      ([⟨1, 1, "pão", 500, none, ⟨⟨2024, 3, 15⟩, 0, 0, 0⟩⟩] : List Expense)) ∧
    List.Sorted expDateLe [⟨1, 1, "pão", 500, none, ⟨⟨2024, 3, 15⟩, 0, 0, 0⟩⟩] := by
  have h := C7_boundary_and_order
    [⟨1, 1, "pão", 500, none, ⟨⟨2024, 3, 15⟩, 0, 0, 0⟩⟩,
     ⟨2, 1, "café", 300, none, ⟨⟨2024, 3, 16⟩, 0, 0, 0⟩⟩]
    1 "hoje".toList none ⟨⟨2024, 3, 15⟩, 10, 0, 0⟩
    [⟨1, 1, "pão", 500, none, ⟨⟨2024, 3, 15⟩, 0, 0, 0⟩⟩] 500
    ⟨⟨2024, 3, 15⟩, 0, 0, 0⟩ ⟨⟨2024, 3, 16⟩, 0, 0, 0⟩ (by decide)
  exact ⟨h.1 ⟨2, 1, "café", 300, none, ⟨⟨2024, 3, 16⟩, 0, 0, 0⟩⟩ (by decide),
    h.2.1 (by decide) ⟨1, 1, "pão", 500, none, ⟨⟨2024, 3, 15⟩, 0, 0, 0⟩⟩
      (by decide) (by decide) (by decide) (by decide),
    h.2.2⟩

/-! ## Claim C1: shape of every resolved interval -/

theorem daysInMonth_pos (y m : Nat) : 1 ≤ daysInMonth y m := by
  unfold daysInMonth
  split
  · split <;> omega
  · split <;> omega

theorem Date.lt_succD (a : Date) : Date.lt a a.succD := by
  unfold Date.succD
  split
  · simp [Date.lt]
  · split <;> simp [Date.lt]

theorem DT.lt_addDays1 {t e : DT} (h : t.addDays1O = some e) : DT.lt t e := by
  rw [DT.addDays1O_eq h]
  exact Or.inl (Date.lt_succD t.date)

theorem Date.predD_lt {a : Date} (hy : 1 ≤ a.y) : Date.lt a.predD a := by
  unfold Date.predD
  split
  · simp [Date.lt]; omega
  · split <;> simp [Date.lt] <;> omega

theorem Date.predDO_lt {a p : Date} (h : a.predDO = some p) (hy : 1 ≤ a.y) :
    Date.lt p a := by
  by_cases hc : a.y = 1 ∧ a.m = 1 ∧ a.d = 1
  · rw [Date.predDO, if_pos hc] at h
    simp at h
  · rw [Date.predDO, if_neg hc] at h
    rw [← Option.some_inj.mp h]
    exact Date.predD_lt hy

theorem daysInMonth_dec (y : Nat) : daysInMonth y 12 = 31 := by
  unfold daysInMonth
  norm_num

theorem Date.predDO_valid {a p : Date} (hv : a.ValidD) (h : a.predDO = some p) :
    p.ValidD := by
  by_cases hc : a.y = 1 ∧ a.m = 1 ∧ a.d = 1
  · rw [Date.predDO, if_pos hc] at h
    simp at h
  · rw [Date.predDO, if_neg hc] at h
    rw [← Option.some_inj.mp h]
    obtain ⟨y, m, d⟩ := a
    simp only at hc
    obtain ⟨h1, h2, h3, h4, h5, h6⟩ := hv
    simp only at h1 h2 h3 h4 h5 h6
    have hpd : Date.predD ⟨y, m, d⟩ =
        if 1 < d then ⟨y, m, d - 1⟩
        else if 1 < m then ⟨y, m - 1, daysInMonth y (m - 1)⟩
        else ⟨y - 1, 12, 31⟩ := rfl
    rw [hpd]
    by_cases hd1 : 1 < d
    · rw [if_pos hd1]
      simp only [Date.ValidD]
      exact ⟨h1, h2, h3, h4, by omega, by omega⟩
    · rw [if_neg hd1]
      by_cases hm1 : 1 < m
      · rw [if_pos hm1]
        simp only [Date.ValidD]
        exact ⟨h1, h2, by omega, by omega, daysInMonth_pos y (m - 1), le_refl _⟩
      · rw [if_neg hm1]
        simp only [Date.ValidD]
        refine ⟨by omega, by omega, by omega, by omega, by omega, ?_⟩
        rw [daysInMonth_dec]

theorem Date.subDaysO_le : ∀ (n : Nat) {a b : Date}, a.ValidD →
    Date.subDaysO a n = some b → Date.le b a ∧ b.ValidD := by
  intro n
  induction n with
  | zero =>
    intro a b hv h
    rw [Date.subDaysO] at h
    exact ⟨Or.inr (Option.some_inj.mp h).symm, (Option.some_inj.mp h) ▸ hv⟩
  | succ k ih =>
    intro a b hv h
    rw [Date.subDaysO] at h
    cases hp : a.predDO with
    | none => rw [hp] at h; simp at h
    | some p =>
      rw [hp] at h
      have hpv := Date.predDO_valid hv hp
      have hplt := Date.predDO_lt hp hv.1
      obtain ⟨hle, hbv⟩ := ih hpv h
      exact ⟨Date.le_tr hle (Or.inl hplt), hbv⟩

theorem DT.subDaysOLe {t b : DT} {n : Nat} (hv : t.date.ValidD)
    (h : t.subDaysO n = some b) :
    DT.le b t ∧ b.date.ValidD ∧ b.h = t.h ∧ b.mi = t.mi ∧ b.s = t.s := by
  unfold DT.subDaysO at h
  cases hd : Date.subDaysO t.date n with
  | none => rw [hd] at h; simp at h
  | some d =>
    rw [hd] at h
    simp only [Option.map_some'] at h
    obtain ⟨hle, hdv⟩ := Date.subDaysO_le n hv hd
    rw [← Option.some_inj.mp h]
    refine ⟨?_, hdv, rfl, rfl, rfl⟩
    rcases hle with hlt | heq
    · exact Or.inl (Or.inl hlt)
    · right
      obtain ⟨dd, hh, mm, ss⟩ := t
      simp only at heq ⊢
      rw [heq]

theorem DT.subDays1_eq {t b : DT} (h : t.subDaysO 1 = some b) :
    b = ⟨t.date.predD, t.h, t.mi, t.s⟩ ∧ t.date.predDO = some t.date.predD := by
  unfold DT.subDaysO at h
  cases hp : t.date.predDO with
  | none => simp [Date.subDaysO, hp] at h
  | some p =>
    have hpp : p = t.date.predD := by
      by_cases hc : t.date.y = 1 ∧ t.date.m = 1 ∧ t.date.d = 1
      · rw [Date.predDO, if_pos hc] at hp; simp at hp
      · rw [Date.predDO, if_neg hc] at hp
        exact (Option.some_inj.mp hp).symm
    simp only [Date.subDaysO, hp, Option.map_some'] at h
    rw [← Option.some_inj.mp h, hpp]
    exact ⟨rfl, rfl⟩

theorem DT.le_day1 (t : DT) (hd : 1 ≤ t.date.d) :
    DT.le ⟨⟨t.date.y, t.date.m, 1⟩, t.h, t.mi, t.s⟩ t := by
  rcases Nat.lt_or_ge 1 t.date.d with hlt | hge
  · exact Or.inl (Or.inl (Or.inr ⟨rfl, Or.inr ⟨rfl, hlt⟩⟩))
  · have hd1 : t.date.d = 1 := by omega
    right
    obtain ⟨⟨y, m, d⟩, hh, mm, ss⟩ := t
    simp only at hd1
    simp [hd1]

theorem DT.ltOfLeOfLt {a b c : DT} (h1 : DT.le a b) (h2 : DT.lt b c) : DT.lt a c :=
  h1.elim (fun hl => DT.ltTrans hl h2) (fun he => he ▸ h2)

theorem liftO_bind_ok {α β : Type} {x : Option α} {f : α → Except Unit β} {r : β}
    (h : (liftO x >>= f) = .ok r) : ∃ a, x = some a ∧ f a = .ok r := by
  cases x with
  | none =>
    exfalso
    have : (liftO (none : Option α) >>= f) = .error () := rfl
    rw [this] at h
    exact absurd h (by simp)
  | some a =>
    refine ⟨a, rfl, ?_⟩
    have : (liftO (some a) >>= f) = f a := rfl
    rw [← this]
    exact h

theorem DT.addDaysIntO_le {t b : DT} {k : Int} (hk : k ≤ 0) (hv : t.date.ValidD)
    (h : t.addDaysIntO k = some b) :
    DT.le b t ∧ b.h = t.h ∧ b.mi = t.mi ∧ b.s = t.s := by
  unfold DT.addDaysIntO at h
  by_cases h0 : 0 ≤ k
  · have hkz : k = 0 := le_antisymm hk h0
    subst hkz
    rw [if_pos (le_refl 0)] at h
    have hz : t.addDaysO (0 : Int).toNat = some t := rfl
    rw [hz] at h
    rw [← Option.some_inj.mp h]
    exact ⟨Or.inr rfl, rfl, rfl, rfl⟩
  · rw [if_neg h0] at h
    have hs := DT.subDaysOLe hv h
    exact ⟨hs.1, hs.2.2⟩

/-- Counterexample to claim C1 as stated.  The dynamic rule's regex
accepts N = 0: "últimos 0 dias" resolves (here at now = 2024-03-15 10:00
civil-local) to the empty interval whose start equals its end — start is
NOT strictly before end. -/
theorem C1_counterexample :
    resolve_summary_period "últimos 0 dias".toList ⟨⟨2024, 3, 15⟩, 10, 0, 0⟩ =
      .ok (some (⟨⟨2024, 3, 16⟩, 0, 0, 0⟩, ⟨⟨2024, 3, 16⟩, 0, 0, 0⟩)) ∧
    ¬ DT.lt ⟨⟨2024, 3, 16⟩, 0, 0, 0⟩ ⟨⟨2024, 3, 16⟩, 0, 0, 0⟩ := by
  decide

/-- Claim C1 (amended): for every period string matched by a resolution
rule of the summary resolver (shared by `get_expenses_summary` and
`get_incomes_summary`) or of the reminders resolver, both interval
boundaries are exact 00:00 civil-local instants and start ≤ end; start is
strictly before end in every case except the dynamic rule with N = 0
("últimos 0 dias"), whose interval is empty.  The reminders resolver
(including the literal dd/mm/yyyy day window) always returns a strict
interval. -/
theorem C1_amended_interval_shape (period : List Char) (nowBrt : DT)
    (hv : nowBrt.date.ValidD) :
    (∀ st en, resolve_summary_period period nowBrt = .ok (some (st, en)) →
      st.h = 0 ∧ st.mi = 0 ∧ st.s = 0 ∧ en.h = 0 ∧ en.mi = 0 ∧ en.s = 0 ∧
      DT.le st en ∧ (DT.lt st en ∨ matchUltimosAux (lowerChars period) = some 0)) ∧
    (∀ st en, resolve_reminders_period period nowBrt = .ok (some (st, en)) →
      st.h = 0 ∧ st.mi = 0 ∧ st.s = 0 ∧ en.h = 0 ∧ en.mi = 0 ∧ en.s = 0 ∧
      DT.lt st en) := by
  have hvday : 1 ≤ nowBrt.date.d := hv.2.2.2.2.1
  constructor
  · intro st en h
    unfold resolve_summary_period at h
    by_cases c1 : containsTok (lowerChars period) "mês".toList
    · rw [if_pos c1] at h
      obtain ⟨e, he, hf⟩ := liftO_bind_ok h
      have hee := DT.addDays1O_eq he
      simp only [pure, Except.pure, Except.ok.injEq, Option.some.injEq,
        Prod.mk.injEq] at hf
      obtain ⟨hst, hen⟩ := hf
      subst hst
      subst hen
      rw [hee]
      have hle := DT.le_day1 nowBrt.startOfDay hvday
      have hlt : DT.lt nowBrt.startOfDay ⟨nowBrt.startOfDay.date.succD, 0, 0, 0⟩ :=
        Or.inl (Date.lt_succD _)
      have hlt2 := DT.ltOfLeOfLt hle hlt
      exact ⟨rfl, rfl, rfl, rfl, rfl, rfl, Or.inl hlt2, Or.inl hlt2⟩
    · rw [if_neg c1] at h
      by_cases c2 : containsTok (lowerChars period) "hoje".toList
      · rw [if_pos c2] at h
        obtain ⟨e, he, hf⟩ := liftO_bind_ok h
        have hee := DT.addDays1O_eq he
        simp only [pure, Except.pure, Except.ok.injEq, Option.some.injEq,
          Prod.mk.injEq] at hf
        obtain ⟨hst, hen⟩ := hf
        subst hst
        subst hen
        rw [hee]
        have hlt : DT.lt nowBrt.startOfDay ⟨nowBrt.startOfDay.date.succD, 0, 0, 0⟩ :=
          Or.inl (Date.lt_succD _)
        exact ⟨rfl, rfl, rfl, rfl, rfl, rfl, Or.inl hlt, Or.inl hlt⟩
      · rw [if_neg c2] at h
        by_cases c3 : containsTok (lowerChars period) "ontem".toList
        · rw [if_pos c3] at h
          obtain ⟨sb, hsb, hf⟩ := liftO_bind_ok h
          obtain ⟨hsbe, hpd⟩ := DT.subDays1_eq hsb
          simp only [pure, Except.pure, Except.ok.injEq, Option.some.injEq,
            Prod.mk.injEq] at hf
          obtain ⟨hst, hen⟩ := hf
          subst hst
          subst hen
          rw [hsbe]
          have hlt : DT.lt ⟨nowBrt.startOfDay.date.predD, nowBrt.startOfDay.h,
              nowBrt.startOfDay.mi, nowBrt.startOfDay.s⟩ nowBrt.startOfDay :=
            Or.inl (Date.predDO_lt hpd hv.1)
          exact ⟨rfl, rfl, rfl, rfl, rfl, rfl, Or.inl hlt, Or.inl hlt⟩
        · rw [if_neg c3] at h
          by_cases c4 : containsTok (lowerChars period) "semana".toList ∨
            containsTok (lowerChars period) "7 dias".toList
          · rw [if_pos c4] at h
            obtain ⟨sb, hsb, hrest⟩ := liftO_bind_ok h
            obtain ⟨e, he, hf⟩ := liftO_bind_ok hrest
            obtain ⟨hle, hbv, hh, hmi, hs⟩ := @DT.subDaysOLe nowBrt.startOfDay sb 6 hv hsb
            have hee := DT.addDays1O_eq he
            simp only [pure, Except.pure, Except.ok.injEq, Option.some.injEq,
              Prod.mk.injEq] at hf
            obtain ⟨hst, hen⟩ := hf
            subst hst
            subst hen
            rw [hee]
            have hlt : DT.lt nowBrt.startOfDay ⟨nowBrt.startOfDay.date.succD, 0, 0, 0⟩ :=
              Or.inl (Date.lt_succD _)
            have hlt2 := DT.ltOfLeOfLt hle hlt
            exact ⟨hh, hmi, hs, rfl, rfl, rfl, Or.inl hlt2, Or.inl hlt2⟩
          · rw [if_neg c4] at h
            cases hm : matchUltimosAux (lowerChars period) with
            | none =>
              rw [hm] at h
              exact absurd h (by simp [pure, Except.pure])
            | some days =>
              rw [hm] at h
              obtain ⟨sb, hsb, hrest⟩ := liftO_bind_ok h
              obtain ⟨e, he, hf⟩ := liftO_bind_ok hrest
              have hee := DT.addDays1O_eq he
              simp only [pure, Except.pure, Except.ok.injEq, Option.some.injEq,
                Prod.mk.injEq] at hf
              obtain ⟨hst, hen⟩ := hf
              subst hst
              subst hen
              by_cases hdz : days = 0
              · subst hdz
                have hsb1 : nowBrt.startOfDay.addDays1O = some sb := by
                  unfold DT.addDaysIntO at hsb
                  rw [if_pos (by norm_num)] at hsb
                  exact hsb
                rw [he] at hsb1
                rw [← Option.some_inj.mp hsb1, hee]
                exact ⟨rfl, rfl, rfl, rfl, rfl, rfl, Or.inr rfl, Or.inr rfl⟩
              · have hkneg : (1 : Int) - (days : Int) ≤ 0 := by
                  have : (1 : Int) ≤ (days : Int) := by exact_mod_cast Nat.one_le_iff_ne_zero.mpr hdz
                  omega
                obtain ⟨hle, hh, hmi, hs⟩ := @DT.addDaysIntO_le nowBrt.startOfDay sb
                  (1 - (days : Int)) hkneg hv hsb
                rw [hee]
                have hlt : DT.lt nowBrt.startOfDay ⟨nowBrt.startOfDay.date.succD, 0, 0, 0⟩ :=
                  Or.inl (Date.lt_succD _)
                have hlt2 := DT.ltOfLeOfLt hle hlt
                exact ⟨hh, hmi, hs, rfl, rfl, rfl, Or.inl hlt2, Or.inl hlt2⟩
  · intro st en h
    unfold resolve_reminders_period at h
    by_cases c1 : containsTok (lowerChars period) "hoje".toList
    · rw [if_pos c1] at h
      obtain ⟨e, he, hf⟩ := liftO_bind_ok h
      have hee := DT.addDays1O_eq he
      simp only [pure, Except.pure, Except.ok.injEq, Option.some.injEq,
        Prod.mk.injEq] at hf
      obtain ⟨hst, hen⟩ := hf
      subst hst
      subst hen
      rw [hee]
      exact ⟨rfl, rfl, rfl, rfl, rfl, rfl, Or.inl (Date.lt_succD _)⟩
    · rw [if_neg c1] at h
      by_cases c2 : containsTok (lowerChars period) "amanhã".toList
      · rw [if_pos c2] at h
        obtain ⟨sb, hsb, hrest⟩ := liftO_bind_ok h
        obtain ⟨e, he, hf⟩ := liftO_bind_ok hrest
        have hsbe := DT.addDays1O_eq hsb
        have hee := DT.addDays1O_eq he
        simp only [pure, Except.pure, Except.ok.injEq, Option.some.injEq,
          Prod.mk.injEq] at hf
        obtain ⟨hst, hen⟩ := hf
        subst hst
        subst hen
        rw [hee, hsbe]
        exact ⟨rfl, rfl, rfl, rfl, rfl, rfl, Or.inl (Date.lt_succD _)⟩
      · rw [if_neg c2] at h
        cases hmd : matchDateAux (lowerChars period) with
        | none =>
          rw [hmd] at h
          exact absurd h (by simp [pure, Except.pure])
        | some dmy =>
          rw [hmd] at h
          obtain ⟨d, m, y⟩ := dmy
          dsimp only at h
          by_cases hok : strptimeDMYOk d m y
          · rw [if_pos hok] at h
            obtain ⟨e, he, hf⟩ := liftO_bind_ok h
            have hee := DT.addDays1O_eq he
            simp only [pure, Except.pure, Except.ok.injEq, Option.some.injEq,
              Prod.mk.injEq] at hf
            obtain ⟨hst, hen⟩ := hf
            subst hst
            subst hen
            rw [hee]
            exact ⟨rfl, rfl, rfl, rfl, rfl, rfl, Or.inl (Date.lt_succD _)⟩
          · rw [if_neg hok] at h
            exact absurd h (by simp [pure, Except.pure])

/-- Witness for the amended C1, at scenario B of the specification:
now = 2024-03-01 10:00 civil-local, phrase "ontem" — the leap-year
month-end interval `[2024-02-29 00:00, 2024-03-01 00:00)` has 00:00
boundaries with start before end. -/
theorem C1_witness :
    (⟨⟨2024, 2, 29⟩, 0, 0, 0⟩ : DT).h = 0 ∧ (⟨⟨2024, 2, 29⟩, 0, 0, 0⟩ : DT).mi = 0 ∧
    (⟨⟨2024, 2, 29⟩, 0, 0, 0⟩ : DT).s = 0 ∧ (⟨⟨2024, 3, 1⟩, 0, 0, 0⟩ : DT).h = 0 ∧
    (⟨⟨2024, 3, 1⟩, 0, 0, 0⟩ : DT).mi = 0 ∧ (⟨⟨2024, 3, 1⟩, 0, 0, 0⟩ : DT).s = 0 ∧
    DT.le ⟨⟨2024, 2, 29⟩, 0, 0, 0⟩ ⟨⟨2024, 3, 1⟩, 0, 0, 0⟩ ∧
    (DT.lt ⟨⟨2024, 2, 29⟩, 0, 0, 0⟩ ⟨⟨2024, 3, 1⟩, 0, 0, 0⟩ ∨
      matchUltimosAux (lowerChars "ontem".toList) = some 0) := by
  exact (C1_amended_interval_shape "ontem".toList ⟨⟨2024, 3, 1⟩, 10, 0, 0⟩ (by decide)).1
    ⟨⟨2024, 2, 29⟩, 0, 0, 0⟩ ⟨⟨2024, 3, 1⟩, 0, 0, 0⟩ (by decide)

/-! ## Claim C6: the morning pre-notice window -/

theorem DT.not_le_of_lt {a b : DT} (h : DT.lt a b) : ¬ DT.le b a :=
  fun hle => DT.not_lt_of_le hle h

theorem Date.predDO_eq {a p : Date} (h : a.predDO = some p) : p = a.predD := by
  unfold Date.predDO at h
  split at h
  · simp at h
  · exact (Option.some_inj.mp h).symm

/-- Claim C6: for a punctual reminder whose civil-local due hour is before
noon, the pre-notice window opens at 20:00 civil-local on the previous
day; a scan before the window opens sends no pre-notice and changes
nothing, the first scan inside the window (while the due date is still
strictly in the future) sends exactly one pre-notice and sets
`pre_reminder_sent`, any later scan sends none, and once the due date is
no longer in the future no pre-notice is ever sent. -/
theorem C6_pre_notice_window (r : Reminder) (dueBrt w : DT) (cf dOk : Nat → Bool)
    (hsent : r.isSent = false) (hpre : r.preSent = false)
    (hbrt : r.due.toBRTO = some dueBrt) (hmorn : dueBrt.h < 12)
    (hw : windowStartO dueBrt = some w) (hcf : cf r.rid = false) :
    w = ⟨dueBrt.date.predD, 20, 0, 0⟩ ∧
    (∀ now nb, now.toBRTO = some nb → DT.lt now r.due → DT.lt nb w →
      check_and_send_reminders cf dOk now [r] = ([r], [])) ∧
    (∀ now nb, now.toBRTO = some nb → DT.lt now r.due → DT.le w nb →
      check_and_send_reminders cf dOk now [r] =
        ([{ r with preSent := true }], [send_whatsapp_message dOk r.rid .preNotice])) ∧
    (∀ now2, (now2.toBRTO).isSome → DT.lt now2 r.due →
      check_and_send_reminders cf dOk now2 [{ r with preSent := true }] =
        ([{ r with preSent := true }], [])) ∧
    (∀ now3, (now3.toBRTO).isSome → ¬ DT.lt now3 r.due →
      ((check_and_send_reminders cf dOk now3 [r]).2.filter
        fun n => n.kind == NoticeKind.preNotice) = []) := by
  have hwval : w = ⟨dueBrt.date.predD, 20, 0, 0⟩ := by
    unfold windowStartO at hw
    rw [if_pos hmorn] at hw
    cases hp : dueBrt.date.predDO with
    | none => rw [hp] at hw; simp at hw
    | some p =>
      rw [hp] at hw
      simp only [Option.map_some'] at hw
      rw [← Option.some_inj.mp hw, Date.predDO_eq hp]
  refine ⟨hwval, ?_, ?_, ?_, ?_⟩
  · intro now nb hnb hdue hnw
    unfold check_and_send_reminders
    rw [hnb]
    unfold preRow isProCand exactRow isDueCand exactOk
    simp [preFire, hbrt, hw, hsent, hpre, hdue, DT.not_le_of_lt hnw, DT.not_le_of_lt hdue]
  · intro now nb hnb hdue hwin
    unfold check_and_send_reminders
    rw [hnb]
    unfold preRow isProCand exactRow isDueCand exactOk
    simp [preFire, hbrt, hw, hsent, hpre, hdue, hwin, hcf, DT.not_le_of_lt hdue]
  · intro now2 hsome hdue
    obtain ⟨nb2, hnb2⟩ := Option.isSome_iff_exists.mp hsome
    unfold check_and_send_reminders
    rw [hnb2]
    unfold preRow isProCand exactRow isDueCand exactOk
    simp [preFire, hsent, hpre, hdue, DT.not_le_of_lt hdue]
  · intro now3 hsome hdue
    obtain ⟨nb3, hnb3⟩ := Option.isSome_iff_exists.mp hsome
    unfold check_and_send_reminders
    rw [hnb3]
    unfold preRow isProCand exactRow isDueCand exactOk
    simp [preFire, hsent, hpre, hdue]
    intro _ _
    simp [send_whatsapp_message]

/-- Witness for C6, scenario D of the specification: reminder due 08:00
civil-local on 2024-03-16 (11:00 UTC); the window opens 20:00 civil-local
on 2024-03-15.  The 19:59 tick sends nothing, the 20:01 tick sends
exactly one pre-notice and sets the flag, the 20:30 tick sends nothing. -/
theorem C6_witness :
    check_and_send_reminders (fun _ => false) (fun _ => true) ⟨⟨2024, 3, 15⟩, 22, 59, 0⟩
        [⟨1, 1, "consulta", ⟨⟨2024, 3, 16⟩, 11, 0, 0⟩, false, false, none⟩] =
      ([⟨1, 1, "consulta", ⟨⟨2024, 3, 16⟩, 11, 0, 0⟩, false, false, none⟩], []) ∧
    check_and_send_reminders (fun _ => false) (fun _ => true) ⟨⟨2024, 3, 15⟩, 23, 1, 0⟩
        [⟨1, 1, "consulta", ⟨⟨2024, 3, 16⟩, 11, 0, 0⟩, false, false, none⟩] =
      ([⟨1, 1, "consulta", ⟨⟨2024, 3, 16⟩, 11, 0, 0⟩, false, true, none⟩],
       [⟨1, .preNotice, true⟩]) ∧
    check_and_send_reminders (fun _ => false) (fun _ => true) ⟨⟨2024, 3, 15⟩, 23, 30, 0⟩
        [⟨1, 1, "consulta", ⟨⟨2024, 3, 16⟩, 11, 0, 0⟩, false, true, none⟩] =
      ([⟨1, 1, "consulta", ⟨⟨2024, 3, 16⟩, 11, 0, 0⟩, false, true, none⟩], []) := by
  have h := C6_pre_notice_window
    ⟨1, 1, "consulta", ⟨⟨2024, 3, 16⟩, 11, 0, 0⟩, false, false, none⟩
    ⟨⟨2024, 3, 16⟩, 8, 0, 0⟩ ⟨⟨2024, 3, 15⟩, 20, 0, 0⟩ (fun _ => false) (fun _ => true)
    (by decide) (by decide) (by decide) (by decide) (by decide) (by decide)
  exact ⟨h.2.1 ⟨⟨2024, 3, 15⟩, 22, 59, 0⟩ ⟨⟨2024, 3, 15⟩, 19, 59, 0⟩
      (by decide) (by decide) (by decide),
    h.2.2.1 ⟨⟨2024, 3, 15⟩, 23, 1, 0⟩ ⟨⟨2024, 3, 15⟩, 20, 1, 0⟩
      (by decide) (by decide) (by decide),
    h.2.2.2.1 ⟨⟨2024, 3, 15⟩, 23, 30, 0⟩ (by decide) (by decide)⟩

/-! ## Claim C5: idempotence of the maintenance tick

Infrastructure: how one scan transforms the rows and which notices it can
emit, phrased over arbitrary row lists. -/

/-- Number of exact-time notices for one reminder id in a notice list. -/
def countDue (l : List Notice) (i : Nat) : Nat :=
  (l.filter fun n => n.rid == i && n.kind == NoticeKind.dueNotice).length

/-- Every reminder row with this id is already flagged sent. -/
def ridSent (db : List Reminder) (i : Nat) : Prop :=
  ∀ x ∈ db, x.rid = i → x.isSent = true

theorem preRow_fields (cf : Nat → Bool) (u b : DT) (r : Reminder) :
    (preRow cf u b r).rid = r.rid ∧ (preRow cf u b r).userId = r.userId ∧
    (preRow cf u b r).description = r.description ∧ (preRow cf u b r).due = r.due ∧
    (preRow cf u b r).recurrence = r.recurrence ∧ (preRow cf u b r).isSent = r.isSent := by
  unfold preRow
  split <;> simp

theorem exactRow_fields (cf : Nat → Bool) (u : DT) (r : Reminder) :
    (exactRow cf u r).rid = r.rid ∧ (exactRow cf u r).userId = r.userId ∧
    (exactRow cf u r).description = r.description ∧ (exactRow cf u r).due = r.due ∧
    (exactRow cf u r).recurrence = r.recurrence ∧ (exactRow cf u r).preSent = r.preSent := by
  unfold exactRow
  split <;> simp

theorem exactRow_keeps_sent (cf : Nat → Bool) (u : DT) (r : Reminder)
    (h : r.isSent = true) : (exactRow cf u r).isSent = true := by
  unfold exactRow
  split <;> simp [h]

theorem preRow_keeps_sent (cf : Nat → Bool) (u b : DT) (r : Reminder)
    (h : r.isSent = true) : (preRow cf u b r).isSent = true := by
  rw [(preRow_fields cf u b r).2.2.2.2.2]
  exact h

theorem check_none (cf dOk : Nat → Bool) {now : DT} (h : now.toBRTO = none)
    (db : List Reminder) : check_and_send_reminders cf dOk now db = (db, []) := by
  unfold check_and_send_reminders
  rw [h]

theorem check_state_eq (cf dOk : Nat → Bool) {now nb : DT} (h : now.toBRTO = some nb)
    (db : List Reminder) :
    (check_and_send_reminders cf dOk now db).1 =
      (db.map (preRow cf now nb)).map (exactRow cf now) := by
  unfold check_and_send_reminders
  rw [h]

theorem check_notices_eq (cf dOk : Nat → Bool) {now nb : DT} (h : now.toBRTO = some nb)
    (db : List Reminder) :
    (check_and_send_reminders cf dOk now db).2 =
      ((db.filter (isProCand now)).filter (preFire nb)).map
        (fun r => send_whatsapp_message dOk r.rid .preNotice) ++
      (((db.map (preRow cf now nb)).filter (isDueCand now)).filter exactOk).map
        (fun r => send_whatsapp_message dOk r.rid .dueNotice) := by
  unfold check_and_send_reminders
  rw [h]

theorem map_rid_comp (cf : Nat → Bool) (now nb : DT) :
    ∀ db : List Reminder,
      ((db.map (preRow cf now nb)).map (exactRow cf now)).map Reminder.rid =
        db.map Reminder.rid
  | [] => rfl
  | r :: rest => by
    simp only [List.map_cons, List.cons.injEq]
    exact ⟨(exactRow_fields cf now _).1.trans (preRow_fields cf now nb r).1,
      map_rid_comp cf now nb rest⟩

theorem check_rid_map (cf dOk : Nat → Bool) (now : DT) (db : List Reminder) :
    ((check_and_send_reminders cf dOk now db).1).map Reminder.rid =
      db.map Reminder.rid := by
  cases h : now.toBRTO with
  | none => rw [check_none cf dOk h db]
  | some nb =>
    rw [check_state_eq cf dOk h db]
    exact map_rid_comp cf now nb db

theorem countDue_append (l1 l2 : List Notice) (i : Nat) :
    countDue (l1 ++ l2) i = countDue l1 i + countDue l2 i := by
  simp [countDue, List.filter_append]

theorem countDue_map_pre (dOk : Nat → Bool) (l : List Reminder) (i : Nat) :
    countDue (l.map fun r => send_whatsapp_message dOk r.rid .preNotice) i = 0 := by
  induction l with
  | nil => rfl
  | cons r rest ih =>
    simp only [List.map_cons]
    unfold countDue
    rw [List.filter_cons]
    simp only [send_whatsapp_message]
    simp

theorem countDue_map_due (dOk : Nat → Bool) (l : List Reminder) (i : Nat) :
    countDue (l.map fun r => send_whatsapp_message dOk r.rid .dueNotice) i =
      (l.filter fun r => r.rid == i).length := by
  induction l with
  | nil => rfl
  | cons r rest ih =>
    simp only [List.map_cons]
    unfold countDue
    rw [List.filter_cons, List.filter_cons]
    simp only [send_whatsapp_message]
    unfold countDue at ih
    by_cases hr : r.rid = i
    · simp [hr]
      exact ih
    · simp [hr]
      exact ih

theorem filter_key_len_le_one {l : List Reminder}
    (h : (l.map Reminder.rid).Nodup) (i : Nat) :
    (l.filter fun r => r.rid == i).length ≤ 1 := by
  induction l with
  | nil => simp
  | cons x xs ih =>
    simp only [List.map_cons, List.nodup_cons] at h
    rw [List.filter_cons]
    by_cases hx : x.rid = i
    · have hnil : xs.filter (fun r => r.rid == i) = [] := by
        rw [List.filter_eq_nil_iff]
        intro r hr hb
        apply h.1
        rw [List.mem_map]
        refine ⟨r, hr, ?_⟩
        rw [hx]
        simpa using hb
      simp [hx, hnil]
    · have hxf : (x.rid == i) = false := by simpa using hx
      simp [hxf]
      simpa using ih h.2

theorem map_rid_pre (cf : Nat → Bool) (now nb : DT) :
    ∀ db : List Reminder,
      (db.map (preRow cf now nb)).map Reminder.rid = db.map Reminder.rid
  | [] => rfl
  | r :: rest => by
    simp only [List.map_cons, List.cons.injEq]
    exact ⟨(preRow_fields cf now nb r).1, map_rid_pre cf now nb rest⟩

theorem countDue_check_le_one (cf dOk : Nat → Bool) (now : DT) {db : List Reminder}
    (h : (db.map Reminder.rid).Nodup) (i : Nat) :
    countDue (check_and_send_reminders cf dOk now db).2 i ≤ 1 := by
  cases hb : now.toBRTO with
  | none =>
    rw [check_none cf dOk hb db]
    simp [countDue]
  | some nb =>
    rw [check_notices_eq cf dOk hb db, countDue_append, countDue_map_pre, countDue_map_due]
    simp only [Nat.zero_add]
    apply filter_key_len_le_one
    have hnd1 : ((db.map (preRow cf now nb)).map Reminder.rid).Nodup := by
      rw [map_rid_pre]
      exact h
    have hsub : (((db.map (preRow cf now nb)).filter (isDueCand now)).filter exactOk).Sublist
        (db.map (preRow cf now nb)) :=
      (List.filter_sublist _).trans (List.filter_sublist _)
    exact (hsub.map Reminder.rid).nodup hnd1

theorem check_marks_fired (dOk : Nat → Bool) (now : DT) {db : List Reminder}
    (hnd : (db.map Reminder.rid).Nodup) (i : Nat)
    (hcnt : 1 ≤ countDue (check_and_send_reminders (fun _ => false) dOk now db).2 i) :
    ridSent (check_and_send_reminders (fun _ => false) dOk now db).1 i ∧
      i ∈ db.map Reminder.rid := by
  cases hb : now.toBRTO with
  | none =>
    rw [check_none _ _ hb db] at hcnt
    simp [countDue] at hcnt
  | some nb =>
    rw [check_notices_eq _ _ hb db, countDue_append, countDue_map_pre,
      countDue_map_due] at hcnt
    simp only [Nat.zero_add] at hcnt
    have hpos : 0 < ((((db.map (preRow (fun _ => false) now nb)).filter
        (isDueCand now)).filter exactOk).filter fun r => r.rid == i).length := by omega
    obtain ⟨r1, hr1⟩ := List.exists_mem_of_length_pos hpos
    rw [List.mem_filter] at hr1
    obtain ⟨hr1L, hr1b⟩ := hr1
    have hr1i : r1.rid = i := by simpa using hr1b
    rw [List.mem_filter] at hr1L
    obtain ⟨hr1a, hok⟩ := hr1L
    rw [List.mem_filter] at hr1a
    obtain ⟨hr1m, hcand⟩ := hr1a
    rw [List.mem_map] at hr1m
    obtain ⟨z, hz, hzr⟩ := hr1m
    have hzi : z.rid = i := by
      rw [← hr1i, ← hzr, (preRow_fields (fun _ => false) now nb z).1]
    constructor
    · intro x hx hxi
      rw [check_state_eq _ _ hb db, List.mem_map] at hx
      obtain ⟨y, hy, hyx⟩ := hx
      rw [List.mem_map] at hy
      obtain ⟨w, hw, hwy⟩ := hy
      have hwi : w.rid = i := by
        rw [← hxi, ← hyx, (exactRow_fields (fun _ => false) now y).1, ← hwy,
          (preRow_fields (fun _ => false) now nb w).1]
      have hzw : z = w := List.inj_on_of_nodup_map hnd hz hw (by rw [hzi, hwi])
      rw [← hyx, ← hwy, ← hzw, hzr]
      unfold exactRow
      rw [if_pos (by simp [hcand, hok])]
    · exact List.mem_map.mpr ⟨z, hz, hzi⟩

theorem check_sent_quiet (cf dOk : Nat → Bool) (now : DT) {db : List Reminder} (i : Nat)
    (hs : ridSent db i) :
    countDue (check_and_send_reminders cf dOk now db).2 i = 0 ∧
      ridSent (check_and_send_reminders cf dOk now db).1 i := by
  constructor
  · cases hb : now.toBRTO with
    | none =>
      rw [check_none _ _ hb db]
      simp [countDue]
    | some nb =>
      rw [check_notices_eq _ _ hb db, countDue_append, countDue_map_pre, countDue_map_due]
      simp only [Nat.zero_add, List.length_eq_zero]
      rw [List.filter_eq_nil_iff]
      intro r1 hr1 hb1
      have hr1i : r1.rid = i := by simpa using hb1
      rw [List.mem_filter] at hr1
      obtain ⟨hr1a, hok⟩ := hr1
      rw [List.mem_filter] at hr1a
      obtain ⟨hr1m, hcand⟩ := hr1a
      rw [List.mem_map] at hr1m
      obtain ⟨z, hz, hzr⟩ := hr1m
      have hzi : z.rid = i := by
        rw [← hr1i, ← hzr, (preRow_fields cf now nb z).1]
      have hzs := hs z hz hzi
      unfold isDueCand at hcand
      rw [← hzr, (preRow_fields cf now nb z).2.2.2.2.2, hzs] at hcand
      simp at hcand
  · intro x hx hxi
    cases hb : now.toBRTO with
    | none =>
      rw [check_none _ _ hb db] at hx
      exact hs x hx hxi
    | some nb =>
      rw [check_state_eq _ _ hb db, List.mem_map] at hx
      obtain ⟨y, hy, hyx⟩ := hx
      rw [List.mem_map] at hy
      obtain ⟨w, hw, hwy⟩ := hy
      have hwi : w.rid = i := by
        rw [← hxi, ← hyx, (exactRow_fields cf now y).1, ← hwy,
          (preRow_fields cf now nb w).1]
      have hws := hs w hw hwi
      rw [← hyx]
      apply exactRow_keeps_sent
      rw [← hwy]
      exact preRow_keeps_sent cf now nb w hws

theorem applyMuts_rid_map (p : List (Nat × DT)) :
    ∀ db : List Reminder, (applyMuts p db).map Reminder.rid = db.map Reminder.rid
  | [] => rfl
  | r :: rest => by
    unfold applyMuts
    simp only [List.map_cons, List.cons.injEq]
    constructor
    · cases p.lookup r.rid <;> simp
    · have := applyMuts_rid_map p rest
      unfold applyMuts at this
      exact this

theorem mem_applyMuts {p : List (Nat × DT)} {db : List Reminder} {x : Reminder}
    (h : x ∈ applyMuts p db) :
    ∃ z ∈ db, x.rid = z.rid ∧ x.isSent = z.isSent ∧ x.recurrence = z.recurrence := by
  unfold applyMuts at h
  rw [List.mem_map] at h
  obtain ⟨z, hz, hzx⟩ := h
  refine ⟨z, hz, ?_⟩
  rw [← hzx]
  cases p.lookup z.rid <;> simp

theorem mem_attachInsts {base : Nat} {ps : List PendingInst} {x : Reminder}
    (h : x ∈ attachInsts base ps) :
    base ≤ x.rid ∧ x.isSent = false ∧ x.recurrence = none := by
  unfold attachInsts at h
  rw [List.mem_map] at h
  obtain ⟨pr, _, hx⟩ := h
  rw [← hx]
  exact ⟨Nat.le_add_right base pr.1, rfl, rfl⟩

theorem rid_le_fold : ∀ (db : List Reminder), ∀ z ∈ db,
    z.rid ≤ db.foldr (fun r m => max r.rid m) 0
  | [], z, hz => absurd hz (List.not_mem_nil z)
  | r :: rest, z, hz => by
    rcases List.mem_cons.mp hz with h | h
    · rw [h]
      exact Nat.le_max_left _ _
    · exact (rid_le_fold rest z h).trans (Nat.le_max_right _ _)

theorem rid_lt_nextId {db : List Reminder} {z : Reminder} (h : z ∈ db) :
    z.rid < nextId db :=
  Nat.lt_succ_of_le (rid_le_fold db z h)

theorem generate_ridSent {now : DT} {db : List Reminder} {i : Nat}
    (hs : ridSent db i) (hmem : i ∈ db.map Reminder.rid) :
    ridSent (generate_monthly_reminders now db) i := by
  intro x hx hxi
  unfold generate_monthly_reminders at hx
  rw [List.mem_append] at hx
  rcases hx with hx | hx
  · obtain ⟨z, hz, hzr, hzs, _⟩ := mem_applyMuts hx
    rw [hzs]
    exact hs z hz (by rw [← hzr, hxi])
  · exfalso
    obtain ⟨hge, _, _⟩ := mem_attachInsts hx
    rw [List.mem_map] at hmem
    obtain ⟨w, hw, hwi⟩ := hmem
    have := rid_lt_nextId hw
    omega

theorem attach_rid_map (base : Nat) (ps : List PendingInst) :
    (attachInsts base ps).map Reminder.rid = (ps.enum.map Prod.fst).map (base + ·) := by
  unfold attachInsts
  rw [List.map_map, List.map_map]
  rfl

theorem generate_nodup {now : DT} {db : List Reminder}
    (h : (db.map Reminder.rid).Nodup) :
    ((generate_monthly_reminders now db).map Reminder.rid).Nodup := by
  unfold generate_monthly_reminders
  rw [List.map_append, applyMuts_rid_map]
  apply List.Nodup.append h
  · rw [attach_rid_map]
    apply List.Nodup.map
    · intro a b hab
      simp only at hab
      omega
    · rw [List.enum_map_fst]
      exact List.nodup_range _
  · intro a ha hb
    rw [attach_rid_map, List.map_map, List.mem_map] at hb
    obtain ⟨pr, _, hpr⟩ := hb
    rw [List.mem_map] at ha
    obtain ⟨w, hw, hwi⟩ := ha
    have h1 := rid_lt_nextId hw
    have h2 : nextId db ≤ a := by
      rw [← hpr]
      exact Nat.le_add_right _ _
    omega

theorem Date.addMonthClampO_lt {a b : Date} (h : a.addMonthClampO = some b) :
    Date.lt a b := by
  unfold Date.addMonthClampO at h
  split at h
  · split at h
    · simp at h
    · rw [← Option.some_inj.mp h]
      simp [Date.lt]
  · rw [← Option.some_inj.mp h]
    simp [Date.lt]

theorem DT.addMonthClampO_date {t b : DT} (h : t.addMonthClampO = some b) :
    t.date.addMonthClampO = some b.date := by
  unfold DT.addMonthClampO at h
  cases hm : t.date.addMonthClampO with
  | none => rw [hm] at h; simp at h
  | some dd =>
    rw [hm] at h
    simp only [Option.map_some'] at h
    rw [← Option.some_inj.mp h]

theorem Date.lt_of_le_of_lt {a b c : Date} (h1 : a.le b) (h2 : b.lt c) : a.lt c :=
  h1.elim (fun hl => Date.lt_tr hl h2) (fun he => he ▸ h2)

theorem generate_single_ok (t : Reminder) (now n1 eD : DT)
    (hrec : t.recurrence = some "monthly")
    (hnext : computeNextDue now t.due = some n1)
    (hend : n1.startOfDay.addDays1O = some eD) :
    generate_monthly_reminders now [t] =
      [{ t with due := n1 },
       ⟨t.rid + 1, t.userId, t.description, n1, false, false, none⟩] := by
  unfold generate_monthly_reminders
  simp only [List.filter, hrec, decide_eq_true_eq, List.foldl]
  unfold genStep
  rw [hnext]
  simp only [Option.bind_eq_bind, Option.some_bind, hend]
  have hnodup : existsSameDayInst [t] t.userId t.description n1.startOfDay eD = false := by
    unfold existsSameDayInst
    simp [hrec]
  rw [hnodup]
  simp only [Bool.false_eq_true, if_false, List.nil_append]
  unfold applyMuts attachInsts nextId
  simp [List.lookup, List.enum, hrec]

theorem generate_pair_ok (t inst : Reminder) (now n2 eD : DT)
    (hrec : t.recurrence = some "monthly") (hinst : inst.recurrence = none)
    (hne : inst.rid ≠ t.rid)
    (hnext : computeNextDue now t.due = some n2)
    (hend : n2.startOfDay.addDays1O = some eD)
    (hbefore : DT.lt inst.due n2.startOfDay) :
    generate_monthly_reminders now [t, inst] =
      [{ t with due := n2 }, inst,
       ⟨nextId [t, inst], t.userId, t.description, n2, false, false, none⟩] := by
  unfold generate_monthly_reminders
  simp only [List.filter, hrec, hinst, decide_eq_true_eq, List.foldl]
  unfold genStep
  rw [hnext]
  simp only [Option.bind_eq_bind, Option.some_bind, hend]
  have hnodup : existsSameDayInst [t, inst] t.userId t.description n2.startOfDay eD
      = false := by
    unfold existsSameDayInst
    simp [hrec, hinst, DT.not_le_of_lt hbefore]
  rw [hnodup]
  simp only [Bool.false_eq_true, if_false, List.nil_append]
  unfold applyMuts attachInsts
  have hine : (inst.rid == t.rid) = false := beq_eq_false_iff_ne.mpr hne
  simp [List.lookup, hine, List.enum, hinst, hrec]

theorem rowPE_rid (cf : Nat → Bool) (now nb : DT) (z : Reminder) :
    (exactRow cf now (preRow cf now nb z)).rid = z.rid :=
  (exactRow_fields cf now _).1.trans (preRow_fields cf now nb z).1

theorem rowPE_due (cf : Nat → Bool) (now nb : DT) (z : Reminder) :
    (exactRow cf now (preRow cf now nb z)).due = z.due :=
  (exactRow_fields cf now _).2.2.2.1.trans (preRow_fields cf now nb z).2.2.2.1

theorem rowPE_rec (cf : Nat → Bool) (now nb : DT) (z : Reminder) :
    (exactRow cf now (preRow cf now nb z)).recurrence = z.recurrence :=
  (exactRow_fields cf now _).2.2.2.2.1.trans (preRow_fields cf now nb z).2.2.2.2.1

/-- Claim C5: running the maintenance tick (recurring-template expansion
followed by the notification scan) twice within the same civil day never
yields two exact-time notices for the same reminder row — the first
dispatch flags `is_sent`, which the second scan's query excludes and the
expansion never resets — and never creates two punctual instances of the
recurring template on the same target civil day: the second expansion
targets the following month, one civil month after the first. -/
theorem C5_tick_idempotent (t : Reminder) (now1 now2 n1 n2 e1 e2 nb1 nb2 : DT)
    (dOk1 dOk2 : Nat → Bool)
    (hrec : t.recurrence = some "monthly")
    (hn1 : t.due.addMonthClampO = some n1) (hpast1 : ¬ DT.lt n1 now1)
    (hend1 : n1.startOfDay.addDays1O = some e1)
    (hn2 : n1.addMonthClampO = some n2)
    (hend2 : n2.startOfDay.addDays1O = some e2)
    (hsame : now1.date = now2.date)
    (hb1 : now1.toBRTO = some nb1) (hb2 : now2.toBRTO = some nb2) :
    (∀ i, countDue ((runMaintenanceTick (fun _ => false) dOk1 now1 [t]).2 ++
        (runMaintenanceTick (fun _ => false) dOk2 now2
          (runMaintenanceTick (fun _ => false) dOk1 now1 [t]).1).2) i ≤ 1) ∧
    (∀ a ∈ (runMaintenanceTick (fun _ => false) dOk2 now2
        (runMaintenanceTick (fun _ => false) dOk1 now1 [t]).1).1,
      ∀ b ∈ (runMaintenanceTick (fun _ => false) dOk2 now2
        (runMaintenanceTick (fun _ => false) dOk1 now1 [t]).1).1,
      a.recurrence = none → b.recurrence = none → a.rid ≠ b.rid →
        a.due.date ≠ b.due.date) := by
  have hnext1 : computeNextDue now1 t.due = some n1 := by
    unfold computeNextDue
    rw [hn1]
    simp [hpast1]
  have hd12 : Date.lt n1.date n2.date :=
    Date.addMonthClampO_lt (DT.addMonthClampO_date hn2)
  have hnow1le : DT.le now1 n1 := DT.le_of_not_lt hpast1
  have hdle : Date.le now1.date n1.date := DT.date_le_of_le hnow1le
  have hd2 : Date.lt now2.date n2.date := by
    rw [← hsame]
    exact Date.lt_of_le_of_lt hdle hd12
  have hpast2 : ¬ DT.lt n2 now2 := DT.ltAsym (Or.inl hd2)
  have hnext2 : computeNextDue now2 n1 = some n2 := by
    unfold computeNextDue
    rw [hn2]
    simp [hpast2]
  have hG1 := generate_single_ok t now1 n1 e1 hrec hnext1 hend1
  constructor
  · intro i
    unfold runMaintenanceTick
    rw [countDue_append]
    have hnd0 : (([t]).map Reminder.rid).Nodup := by simp
    have hndG1 : ((generate_monthly_reminders now1 [t]).map Reminder.rid).Nodup :=
      generate_nodup hnd0
    have hnd1full : (((check_and_send_reminders (fun _ => false) dOk1 now1
        (generate_monthly_reminders now1 [t])).1).map Reminder.rid).Nodup := by
      rw [check_rid_map]
      exact hndG1
    have hndG2 : ((generate_monthly_reminders now2
        ((check_and_send_reminders (fun _ => false) dOk1 now1
          (generate_monthly_reminders now1 [t])).1)).map Reminder.rid).Nodup :=
      generate_nodup hnd1full
    by_cases h1 : 1 ≤ countDue (check_and_send_reminders (fun _ => false) dOk1 now1
        (generate_monthly_reminders now1 [t])).2 i
    · obtain ⟨hsent1, hmem1⟩ := check_marks_fired dOk1 now1 hndG1 i h1
      have hmem1' : i ∈ ((check_and_send_reminders (fun _ => false) dOk1 now1
          (generate_monthly_reminders now1 [t])).1).map Reminder.rid := by
        rw [check_rid_map]
        exact hmem1
      have hsentG2 : ridSent (generate_monthly_reminders now2
          ((check_and_send_reminders (fun _ => false) dOk1 now1
            (generate_monthly_reminders now1 [t])).1)) i :=
        generate_ridSent hsent1 hmem1'
      have hq := (check_sent_quiet (fun _ => false) dOk2 now2 i hsentG2).1
      have hle1 := countDue_check_le_one (fun _ => false) dOk1 now1 hndG1 i
      omega
    · have hle2 := countDue_check_le_one (fun _ => false) dOk2 now2 hndG2 i
      omega
  · have hdb1 : (check_and_send_reminders (fun _ => false) dOk1 now1
        (generate_monthly_reminders now1 [t])).1 =
        [exactRow (fun _ => false) now1 (preRow (fun _ => false) now1 nb1
           { t with due := n1 }),
         exactRow (fun _ => false) now1 (preRow (fun _ => false) now1 nb1
           ⟨t.rid + 1, t.userId, t.description, n1, false, false, none⟩)] := by
      rw [hG1, check_state_eq _ _ hb1]
      simp only [List.map_cons, List.map_nil]
    have hX1rec : (exactRow (fun _ => false) now1 (preRow (fun _ => false) now1 nb1
        { t with due := n1 })).recurrence = some "monthly" := by
      rw [rowPE_rec]
      exact hrec
    have hX2rec : (exactRow (fun _ => false) now1 (preRow (fun _ => false) now1 nb1
        ⟨t.rid + 1, t.userId, t.description, n1, false, false, none⟩)).recurrence
          = none := by
      rw [rowPE_rec]
    have hX2ne : (exactRow (fun _ => false) now1 (preRow (fun _ => false) now1 nb1
        ⟨t.rid + 1, t.userId, t.description, n1, false, false, none⟩)).rid ≠
        (exactRow (fun _ => false) now1 (preRow (fun _ => false) now1 nb1
          { t with due := n1 })).rid := by
      rw [rowPE_rid, rowPE_rid]
      show t.rid + 1 ≠ t.rid
      omega
    have hX1next : computeNextDue now2 (exactRow (fun _ => false) now1
        (preRow (fun _ => false) now1 nb1 { t with due := n1 })).due = some n2 := by
      rw [rowPE_due]
      exact hnext2
    have hX2before : DT.lt (exactRow (fun _ => false) now1 (preRow (fun _ => false) now1 nb1
        ⟨t.rid + 1, t.userId, t.description, n1, false, false, none⟩)).due
        n2.startOfDay := by
      rw [rowPE_due]
      exact Or.inl hd12
    have hpair := generate_pair_ok
      (exactRow (fun _ => false) now1 (preRow (fun _ => false) now1 nb1
        { t with due := n1 }))
      (exactRow (fun _ => false) now1 (preRow (fun _ => false) now1 nb1
        ⟨t.rid + 1, t.userId, t.description, n1, false, false, none⟩))
      now2 n2 e2 hX1rec hX2rec hX2ne hX1next hend2 hX2before
    intro a ha b hb hra hrb hne
    unfold runMaintenanceTick at ha hb
    rw [hdb1, hpair, check_state_eq _ _ hb2] at ha hb
    simp only [List.map_cons, List.map_nil, List.mem_cons, List.not_mem_nil,
      or_false] at ha hb
    rcases ha with rfl | rfl | rfl <;> rcases hb with rfl | rfl | rfl <;>
      simp only [rowPE_rid, rowPE_due, rowPE_rec] at hra hrb hne ⊢ <;>
      first
        | (rw [hrec] at hra; simp at hra)
        | (rw [hrec] at hrb; simp at hrb)
        | (exact absurd rfl hne)
        | (exact fun he => Date.lt_irr n2.date (he ▸ hd12))

theorem C5_witness :
    (∀ i, countDue ((runMaintenanceTick (fun _ => false) (fun _ => true)
        ⟨⟨2024, 4, 10⟩, 12, 0, 0⟩
        [⟨1, 1, "aluguel", ⟨⟨2024, 3, 31⟩, 9, 0, 0⟩, false, false, some "monthly"⟩]).2 ++
      (runMaintenanceTick (fun _ => false) (fun _ => true) ⟨⟨2024, 4, 10⟩, 13, 0, 0⟩
        (runMaintenanceTick (fun _ => false) (fun _ => true) ⟨⟨2024, 4, 10⟩, 12, 0, 0⟩
          [⟨1, 1, "aluguel", ⟨⟨2024, 3, 31⟩, 9, 0, 0⟩, false, false,
            some "monthly"⟩]).1).2) i ≤ 1) ∧
    (∀ a ∈ (runMaintenanceTick (fun _ => false) (fun _ => true) ⟨⟨2024, 4, 10⟩, 13, 0, 0⟩
        (runMaintenanceTick (fun _ => false) (fun _ => true) ⟨⟨2024, 4, 10⟩, 12, 0, 0⟩
          [⟨1, 1, "aluguel", ⟨⟨2024, 3, 31⟩, 9, 0, 0⟩, false, false,
            some "monthly"⟩]).1).1,
      ∀ b ∈ (runMaintenanceTick (fun _ => false) (fun _ => true) ⟨⟨2024, 4, 10⟩, 13, 0, 0⟩
        (runMaintenanceTick (fun _ => false) (fun _ => true) ⟨⟨2024, 4, 10⟩, 12, 0, 0⟩
          [⟨1, 1, "aluguel", ⟨⟨2024, 3, 31⟩, 9, 0, 0⟩, false, false,
            some "monthly"⟩]).1).1,
      a.recurrence = none → b.recurrence = none → a.rid ≠ b.rid →
        a.due.date ≠ b.due.date) :=
  C5_tick_idempotent
    ⟨1, 1, "aluguel", ⟨⟨2024, 3, 31⟩, 9, 0, 0⟩, false, false, some "monthly"⟩
    ⟨⟨2024, 4, 10⟩, 12, 0, 0⟩ ⟨⟨2024, 4, 10⟩, 13, 0, 0⟩
    ⟨⟨2024, 4, 30⟩, 9, 0, 0⟩ ⟨⟨2024, 5, 30⟩, 9, 0, 0⟩
    ⟨⟨2024, 5, 1⟩, 0, 0, 0⟩ ⟨⟨2024, 5, 31⟩, 0, 0, 0⟩
    ⟨⟨2024, 4, 10⟩, 9, 0, 0⟩ ⟨⟨2024, 4, 10⟩, 10, 0, 0⟩
    (fun _ => true) (fun _ => true)
    rfl (by decide) (by decide) (by decide) (by decide) (by decide)
    rfl (by decide) (by decide)
